import Mathlib

/-!
# VApp template client (`govcd/vapptemplate.go`)

A shallow embedding of the operations of `vapptemplate.go`:

* the three descriptor accessors `GetTemplateDiskSize`, `GetCPUSize`, `GetMemorySize`,
* the raw passthrough operations `GetRaw` and `PutRaw`,
* link discovery `getLinks` / `GetDiskLink`,
* `Vdc.InstantiateVAppTemplate` with its sequential task waits.

Go strings are byte strings.  They are carried as Lean `String`s; `strconv.Atoi` and
`strings.Contains` work on their UTF-8 bytes (`goBytes`), and `strings.Split` with the one-byte
separator `"/"` cuts at the code point `/`, the only place where the byte `0x2F` occurs in
UTF-8.  Go's `int` is the 64-bit machine integer; arithmetic that can leave its range is reduced
explicitly.

The collaborators that live outside the file (HTTP transport, `url.Parse`, the XML decoder,
`decodeBody`, `Task.WaitTaskCompletion`) are parameters of the operations (`Env`).
-/

set_option linter.dupNamespace false
set_option maxRecDepth 100000

namespace govcd

/-! ## Go strings -/

/-- UTF-8 encoding of one code point, as a list of byte values. -/
def utf8Encode (c : Char) : List Nat :=
  let v := c.toNat
  if v < 0x80 then [v]
  else if v < 0x800 then [0xC0 + v / 64, 0x80 + v % 64]
  else if v < 0x10000 then [0xE0 + v / 4096, 0x80 + (v / 64) % 64, 0x80 + v % 64]
  else [0xF0 + v / 262144, 0x80 + (v / 4096) % 64, 0x80 + (v / 64) % 64, 0x80 + v % 64]

/-- The bytes of a Go string (`[]byte(s)`). -/
def goBytes (s : String) : List Nat :=
  s.data.flatMap utf8Encode

/-! ## `strconv` (Go standard library), specialised to the call `Atoi(s)` -/

namespace strconv

/-- The two sentinel errors a `*strconv.NumError` wraps. -/
inductive NumErr where
  | ErrSyntax
  | ErrRange
  deriving DecidableEq, Repr

/-- The constant `intSize = 32 << (^uint(0) >> 63)` on a 64-bit platform. -/
def intSize : Nat := 64

/-- The constant `maxUint64 = 1<<64 - 1`. -/
def maxUint64 : Nat := 2 ^ 64 - 1

/-- Conversion of an exact value to `uint64` (wrap-around). -/
def toUint64 (n : Nat) : Nat := n % 2 ^ 64

/-- Conversion of an exact value to the 64-bit signed `int` / `int64` (two's complement). -/
def toInt64 (z : Int) : Int := (z + 2 ^ 63) % 2 ^ 64 - 2 ^ 63

/-- The function `lower(c) = c | ('x' - 'X')` on a byte. -/
def lower (c : Nat) : Nat := c ||| 0x20

/-- The digit loop of `ParseUint(s, 10, 0)` from accumulator `n`: the result value and the
error kind (`none` is a nil error).  `cutoff = maxUint64/10 + 1`, `maxVal = 1<<64 - 1`;
the `'_'` case of the switch needs `base == 0` and is not reachable with base 10. -/
def parseUintLoop : List Nat → Nat → Nat × Option NumErr
  | [], n => (n, none)
  | c :: cs, n =>
    let cutoff := maxUint64 / 10 + 1
    let maxVal := toUint64 (toUint64 (2 ^ intSize) + 2 ^ 64 - 1)
    let d? : Option Nat :=
      if 48 ≤ c ∧ c ≤ 57 then some (c - 48)
      else if 97 ≤ lower c ∧ lower c ≤ 122 then some (lower c - 97 + 10)
      else none
    match d? with
    | none => (0, some .ErrSyntax)
    | some d =>
      if d ≥ 10 then (0, some .ErrSyntax)
      else if n ≥ cutoff then (maxVal, some .ErrRange)
      else
        let n10 := toUint64 (n * 10)
        let n1 := toUint64 (n10 + d)
        if n1 < n10 ∨ n1 > maxVal then (maxVal, some .ErrRange)
        else parseUintLoop cs n1

/-- The call `ParseUint(s, 10, 0)`. -/
def ParseUint (s : List Nat) : Nat × Option NumErr :=
  if s = [] then (0, some .ErrSyntax)
  else parseUintLoop s 0

/-- The call `ParseInt(s, 10, 0)`. -/
def ParseInt (s : List Nat) : Int × Option NumErr :=
  match s with
  | [] => (0, some .ErrSyntax)
  | c0 :: rest =>
    -- Pick off leading sign.
    let neg := decide (c0 = 45)
    let s1 := if c0 = 43 then rest else if c0 = 45 then rest else s
    -- Convert unsigned and check range.
    let r := ParseUint s1
    if r.2 = some .ErrSyntax then (0, some .ErrSyntax)
    else
      let cutoff : Nat := 2 ^ (intSize - 1)
      if !neg && decide (r.1 ≥ cutoff) then (toInt64 (cutoff - 1 : Nat), some .ErrRange)
      else if neg && decide (r.1 > cutoff) then (toInt64 (-(cutoff : Int)), some .ErrRange)
      else
        let n := toInt64 r.1
        (if neg then toInt64 (-n) else n, none)

/-- The digit loop of the fast path of `Atoi`: `ch -= '0'` on a byte, `n = n*10 + int(ch)`
on `int`.  `none` is the syntax-error return. -/
def atoiFastLoop : List Nat → Int → Option Int
  | [], n => some n
  | ch :: cs, n =>
    let ch1 := (ch + 256 - 48) % 256
    if ch1 > 9 then none
    else atoiFastLoop cs (toInt64 (n * 10 + ch1))

/-- The function `strconv.Atoi`: the `int` returned and the kind of the `*NumError`
returned with it (`none` for a nil error). -/
def Atoi (s : List Nat) : Int × Option NumErr :=
  let sLen := s.length
  if (intSize == 32 && (decide (0 < sLen) && decide (sLen < 10))) ||
      (intSize == 64 && (decide (0 < sLen) && decide (sLen < 19))) then
    -- Fast path for small integers that fit int type.
    match s with
    | [] => (0, some .ErrSyntax)
    | c0 :: rest =>
      let s1 := if c0 = 45 ∨ c0 = 43 then rest else s
      if (c0 = 45 ∨ c0 = 43) ∧ s1.length < 1 then (0, some .ErrSyntax)
      else
        match atoiFastLoop s1 0 with
        | none => (0, some .ErrSyntax)
        | some n => (if c0 = 45 then toInt64 (-n) else n, none)
  else
    -- Slow path for invalid, big, or underscored integers.
    let r := ParseInt s
    (toInt64 r.1, r.2)

end strconv

/-! ## Errors -/

/-- Go `error` values.  A nil error is `none : Option Error`. -/
inductive Error where
  /-- An error value produced by a collaborator (`net/url`, transport, `io`, XML, task). -/
  | external (msg : String)
  /-- A `*strconv.NumError` with its `Func`, `Num` and `Err` fields. -/
  | numError (func num : String) (err : strconv.NumErr)
  /-- The value of `fmt.Errorf(format, arg)`. -/
  | errorf (format : String) (arg : Error)
  deriving DecidableEq, Repr

/-- The function `strconv.Atoi` on a Go string, with the `*NumError` it returns
(`Func = "Atoi"`, `Num = s`). -/
def strconv.AtoiString (s : String) : Int × Option Error :=
  let r := strconv.Atoi (goBytes s)
  (r.1, r.2.map (Error.numError "Atoi" s))

/-! ## `strings` (Go standard library) -/

namespace strings

/-- Byte-wise `strings.HasPrefix(s, p)`. -/
def startsWith : List Nat → List Nat → Bool
  | _, [] => true
  | [], _ :: _ => false
  | a :: s, b :: p => a == b && startsWith s p

/-- Byte-wise search of `substr` in `s` (`strings.Index(s, substr) >= 0`). -/
def containsBytes : List Nat → List Nat → Bool
  | [], substr => startsWith [] substr
  | a :: s, substr => startsWith (a :: s) substr || containsBytes s substr

/-- The function `strings.Contains(s, substr)`. -/
def Contains (s substr : String) : Bool :=
  containsBytes (goBytes s) (goBytes substr)

/-- Cutting a code point list at every `sep`. -/
def splitChars (sep : Char) : List Char → List (List Char)
  | [] => [[]]
  | c :: cs =>
    if c = sep then [] :: splitChars sep cs
    else
      match splitChars sep cs with
      | seg :: segs => (c :: seg) :: segs
      | [] => [[c]]

/-- The function `strings.Split(s, sep)` for a separator of one ASCII byte. -/
def Split (s : String) (sep : Char) : List String :=
  (splitChars sep s.data).map String.mk

end strings

/-! ## `xmlquery` documents (github.com/antchfx/xmlquery) -/

/-- A node of a parsed XML document.  Element and attribute names are qualified names as
written in the document (`ovf:Item`, `rasd:Description`, `href`). -/
inductive Node where
  | document (children : List Node)
  | element (name : String) (attrs : List (String × String)) (children : List Node)
  | text (data : String)
  | comment (data : String)
  deriving Repr

namespace xmlquery

mutual
/-- The method `Node.InnerText`: the text of all text nodes below the node, in document order;
comments contribute nothing. -/
def InnerText : Node → String
  | .text d => d
  | .comment _ => ""
  | .element _ _ cs => innerTextList cs
  | .document cs => innerTextList cs
/-- Inner text of a sequence of siblings. -/
def innerTextList : List Node → String
  | [] => ""
  | c :: cs => InnerText c ++ innerTextList cs
end

mutual
/-- The call `Find(top, "//" + name)`: every element called `name` in the document, in
document order. -/
def Find : Node → String → List Node
  | .text _, _ => []
  | .comment _, _ => []
  | .element n as cs, name =>
    (if n = name then [Node.element n as cs] else []) ++ findList cs name
  | .document cs, name => findList cs name
/-- The elements called `name` below a sequence of siblings, in document order. -/
def findList : List Node → String → List Node
  | [], _ => []
  | c :: cs, name => Find c name ++ findList cs name
end

/-- The child nodes of a node. -/
def children : Node → List Node
  | .element _ _ cs => cs
  | .document cs => cs
  | _ => []

/-- Whether a node is an element called `name`. -/
def isElementNamed (name : String) : Node → Bool
  | .element n _ _ => n == name
  | _ => false

/-- The method `Node.SelectElement(name)`: the first child element called `name`, or nil. -/
def SelectElement (n : Node) (name : String) : Option Node :=
  (children n).find? (isElementNamed name)

/-- The method `Node.SelectAttr(name)`: the value of the first attribute called `name`, or the
empty string when there is none. -/
def SelectAttr (n : Node) (name : String) : String :=
  match n with
  | .element _ as _ =>
    match as.find? (fun a => a.1 == name) with
    | some a => a.2
    | none => ""
  | _ => ""

end xmlquery

/-! ## The client and its collaborators -/

/-- A parsed `url.URL`. -/
structure URL where
  raw : String
  Path : String
  deriving DecidableEq, Repr

/-- An `*http.Request` as the operations build it. -/
structure Request where
  method : String
  url : URL
  body : Option String
  header : List (String × String)
  deriving DecidableEq, Repr

/-- The method `req.Header.Add(key, value)`. -/
def Request.HeaderAdd (req : Request) (key value : String) : Request :=
  { req with header := req.header ++ [(key, value)] }

/-- An `*http.Response` that passed `checkResp`: what `ioutil.ReadAll(resp.Body)` delivers,
the bytes read and the read error. -/
structure Response where
  body : String
  readErr : Option Error
  deriving DecidableEq, Repr

namespace types

/-- The type `types.Task` (fields not read by this file are omitted). -/
structure Task where
  HREF : String
  Status : String
  deriving DecidableEq, Repr

/-- The type `types.VAppTemplate`; `Tasks` is the pointer `*TasksInProgress` (`none` is nil)
with its `Task` slice. -/
structure VAppTemplate where
  HREF : String
  Tasks : Option (List Task)
  deriving DecidableEq, Repr

/-- The type `types.InstantiateVAppTemplateParams` (fields not read by this file are omitted). -/
structure InstantiateVAppTemplateParams where
  Name : String
  Deploy : Bool
  PowerOn : Bool
  Description : String
  deriving DecidableEq, Repr

end types

/-- The type `Client`: the API version string the operations read. -/
structure Client where
  APIVersion : String
  deriving DecidableEq, Repr

/-- Modelled from the spec: `Client.NewRequest` is defined outside this file; the transport
collaborator "builds an authenticated request for (headers, method, URL, body)".  The request
records those four arguments. -/
def Client.NewRequest (_cli : Client) (params : List (String × String)) (method : String)
    (reqUrl : URL) (body : Option String) : Request :=
  { method := method, url := reqUrl, body := body, header := params }

/-- The collaborators the operations call, as functions of their arguments. -/
structure Env where
  /-- The function `url.Parse`. -/
  urlParse : String → Except Error URL
  /-- The function `url.ParseRequestURI`. -/
  urlParseRequestURI : String → Except Error URL
  /-- The composite `checkResp(client.Http.Do(req))`. -/
  send : Request → Except Error Response
  /-- The function `xmlquery.Parse` on the bytes read; on an error the document is nil. -/
  xmlParse : String → Except Error Node
  /-- The call `decodeBody(resp, task.Task)`. -/
  decodeTask : Response → Except Error types.Task
  /-- The call `decodeBody(resp, vapptemplate.VAppTemplate)`. -/
  decodeVAppTemplate : Response → Except Error types.VAppTemplate
  /-- The call `xml.MarshalIndent(template, "", "  ")`. -/
  marshal : types.InstantiateVAppTemplateParams → Except Error String

/-- How a call ends: it returns its results, or the goroutine panics (nil dereference). -/
inductive Outcome (α : Type) where
  | returned (a : α)
  | panicked
  deriving DecidableEq, Repr

/-- One run of an operation: the requests built and handed to the transport, in order, and
how the call ended. -/
structure Run (α : Type) where
  sent : List Request
  outcome : Outcome α

/-- The type `VAppTemplate`: the resource handle. -/
structure VAppTemplate where
  VAppTemplate : types.VAppTemplate
  client : Client
  deriving DecidableEq, Repr

/-- The function `NewVAppTemplate`. -/
def NewVAppTemplate (cli : Client) : VAppTemplate :=
  { VAppTemplate := { HREF := "", Tasks := none }, client := cli }

/-- The type `Task`; `Task{}` has both pointers nil. -/
structure Task where
  Task : Option types.Task
  client : Option Client
  deriving DecidableEq, Repr

/-- The function `NewTask`. -/
def NewTask (cli : Client) : Task :=
  { Task := some { HREF := "", Status := "" }, client := some cli }

/-- The type `Vdc`, with the `HREF` of its `types.Vdc`. -/
structure Vdc where
  HREF : String
  client : Client
  deriving DecidableEq, Repr

/-! ## The operations of `vapptemplate.go` -/

/-- The Go map `map[string]string`: the value stored under each key, `none` for a key that
is not in the map. -/
abbrev StringMap := String → Option String

/-- The empty map `make(map[string]string)`. -/
def StringMap.empty : StringMap := fun _ => none

/-- The assignment `m[k] = v`. -/
def StringMap.set (m : StringMap) (k v : String) : StringMap :=
  fun k1 => if k1 = k then some v else m k1

/-- The index expression `m[k]`: the zero value `""` for a key that is not in the map. -/
def StringMap.index (m : StringMap) (k : String) : String :=
  (m k).getD ""

/-- The `for _, n := range xmlquery.Find(doc, "//ovf:Item")` loop shared (textually) by the
three descriptor accessors, over the items still to visit; `substr` is the accessor's
description substring.  Falling off the end is `return 0, nil`. -/
def itemLoop (substr : String) : List Node → Int × Option Error
  | [] => (0, none)
  | n :: rest =>
    match xmlquery.SelectElement n "rasd:Description" with
    | some desc =>
      if strings.Contains (xmlquery.InnerText desc) substr then
        match xmlquery.SelectElement n "rasd:VirtualQuantity" with
        | some diskSize => strconv.AtoiString (xmlquery.InnerText diskSize)
        | none => itemLoop substr rest
      else itemLoop substr rest
    | none => itemLoop substr rest

/-- The method `VAppTemplate.GetTemplateDiskSize`. -/
def GetTemplateDiskSize (env : Env) (vat : VAppTemplate) : Run (Int × Option Error) :=
  match env.urlParse vat.VAppTemplate.HREF with
  | .error _ => ⟨[], .panicked⟩ -- theUrl is nil and `*theUrl` dereferences it
  | .ok theUrl =>
    let req := (vat.client.NewRequest [] "GET" theUrl none).HeaderAdd "Accept"
      ("vnd.vmware.vcloud.org+xml;version=" ++ vat.client.APIVersion)
    match env.send req with
    | .error err => ⟨[req], .returned (0, some err)⟩
    | .ok resp =>
      -- `body, err := ioutil.ReadAll(resp.Body)`: err is overwritten by the next line;
      -- `doc, err := xmlquery.Parse(...)`: err is not read again.
      match env.xmlParse resp.body with
      | .error _ => ⟨[req], .panicked⟩ -- doc is nil and `xmlquery.Find` dereferences it
      | .ok doc => ⟨[req], .returned (itemLoop "Hard disk" (xmlquery.Find doc "ovf:Item"))⟩

/-- The method `VAppTemplate.GetCPUSize` (its comment in the source names `GetMemorySize`). -/
def GetCPUSize (env : Env) (vat : VAppTemplate) : Run (Int × Option Error) :=
  match env.urlParse vat.VAppTemplate.HREF with
  | .error _ => ⟨[], .panicked⟩
  | .ok theUrl =>
    let req := (vat.client.NewRequest [] "GET" theUrl none).HeaderAdd "Accept"
      ("vnd.vmware.vcloud.org+xml;version=" ++ vat.client.APIVersion)
    match env.send req with
    | .error err => ⟨[req], .returned (0, some err)⟩
    | .ok resp =>
      match env.xmlParse resp.body with
      | .error _ => ⟨[req], .panicked⟩
      | .ok doc =>
        ⟨[req], .returned (itemLoop "Number of Virtual CPUs" (xmlquery.Find doc "ovf:Item"))⟩

/-- The method `VAppTemplate.GetMemorySize`. -/
def GetMemorySize (env : Env) (vat : VAppTemplate) : Run (Int × Option Error) :=
  match env.urlParse vat.VAppTemplate.HREF with
  | .error _ => ⟨[], .panicked⟩
  | .ok theUrl =>
    let req := (vat.client.NewRequest [] "GET" theUrl none).HeaderAdd "Accept"
      ("vnd.vmware.vcloud.org+xml;version=" ++ vat.client.APIVersion)
    match env.send req with
    | .error err => ⟨[req], .returned (0, some err)⟩
    | .ok resp =>
      match env.xmlParse resp.body with
      | .error _ => ⟨[req], .panicked⟩
      | .ok doc => ⟨[req], .returned (itemLoop "Memory Size" (xmlquery.Find doc "ovf:Item"))⟩

/-- The method `VAppTemplate.GetRaw`. -/
def GetRaw (env : Env) (vat : VAppTemplate) (restUrl : String) : Run (String × Option Error) :=
  match env.urlParse (vat.VAppTemplate.HREF ++ restUrl) with
  | .error err => ⟨[], .returned ("", some err)⟩
  | .ok theUrl =>
    let req := (vat.client.NewRequest [] "GET" theUrl none).HeaderAdd "Accept"
      ("vnd.vmware.vcloud.org+xml;version=" ++ vat.client.APIVersion)
    match env.send req with
    | .error err => ⟨[req], .returned ("", some err)⟩
    | .ok resp =>
      match resp.readErr with
      | some err => ⟨[req], .returned ("", some err)⟩
      | none => ⟨[req], .returned (resp.body, none)⟩

/-- The method `VAppTemplate.PutRaw`. -/
def PutRaw (env : Env) (vat : VAppTemplate) (restUrl content : String) :
    Run (Task × Option Error) :=
  match env.urlParse (vat.VAppTemplate.HREF ++ restUrl) with
  | .error err => ⟨[], .returned ({ Task := none, client := none }, some err)⟩
  | .ok theUrl =>
    let buffer := content
    let req := (vat.client.NewRequest [] "PUT" theUrl (some buffer)).HeaderAdd "Accept"
      ("vnd.vmware.vcloud.org+xml;version=" ++ vat.client.APIVersion)
    match env.send req with
    | .error err => ⟨[req], .returned ({ Task := none, client := none }, some err)⟩
    | .ok resp =>
      let task := NewTask vat.client
      match env.decodeTask resp with
      | .error err =>
        ⟨[req], .returned ({ Task := none, client := none },
          some (.errorf "error decoding Task response: %s" err))⟩
      | .ok decoded =>
        -- The request was successful
        ⟨[req], .returned ({ task with Task := some decoded }, none)⟩

/-- The `for _, n := range xmlquery.Find(doc, "//vcloud:Link")` loop of `getLinks`, over the
links still to visit, from the map built so far. -/
def linkLoop : List Node → StringMap → StringMap
  | [], links => links
  | n :: rest, links =>
    let href := xmlquery.SelectAttr n "href"
    if href ≠ "" then
      let segments := strings.Split href '/'
      -- `segments[len(segments)-1]`: `strings.Split` never returns an empty slice here
      let last := segments.getLastD ""
      linkLoop rest (links.set last href)
    else linkLoop rest links

/-- The method `VAppTemplate.getLinks`. -/
def getLinks (env : Env) (vat : VAppTemplate) : Run (StringMap × Option Error) :=
  match env.urlParse vat.VAppTemplate.HREF with
  | .error _ => ⟨[], .panicked⟩
  | .ok theUrl =>
    let req := (vat.client.NewRequest [] "GET" theUrl none).HeaderAdd "Accept"
      ("vnd.vmware.vcloud.org+xml;version=" ++ vat.client.APIVersion)
    let links := StringMap.empty
    match env.send req with
    | .error err => ⟨[req], .returned (links, some err)⟩
    | .ok resp =>
      match resp.readErr with
      | some err => ⟨[req], .returned (links, some err)⟩
      | none =>
        match env.xmlParse resp.body with
        | .error err => ⟨[req], .returned (links, some err)⟩
        | .ok doc =>
          ⟨[req], .returned (linkLoop (xmlquery.Find doc "vcloud:Link") links, none)⟩

/-- The method `VAppTemplate.GetDiskLink`. -/
def GetDiskLink (env : Env) (vat : VAppTemplate) : Run (String × Option Error) :=
  let r := getLinks env vat
  match r.outcome with
  | .panicked => ⟨r.sent, .panicked⟩
  | .returned (_, some err) => ⟨r.sent, .returned ("", some err)⟩
  | .returned (links, none) => ⟨r.sent, .returned (links.index "disks", none)⟩

/-- What the task loop of `InstantiateVAppTemplate` did: the calls of
`task.WaitTaskCompletion()` made, in order, each with the task waited on and the error it
returned; the collaborator state afterwards; the error the loop ends with. -/
structure WaitRun (σ : Type) where
  waits : List (types.Task × Option Error)
  state : σ
  err : Option Error

/-- The `for _, taskItem := range vapptemplate.VAppTemplate.Tasks.Task` loop, over the tasks
still to visit.  `wait s t` is `task.WaitTaskCompletion()` with `task.Task = t`, called in
collaborator state `s`. -/
def waitLoop {σ : Type} (wait : σ → types.Task → σ × Option Error) :
    List types.Task → σ → WaitRun σ
  | [], s => ⟨[], s, none⟩
  | taskItem :: rest, s =>
    match wait s taskItem with
    | (s1, some err) =>
      ⟨[(taskItem, some err)], s1, some (.errorf "Error performing task: %#v" err)⟩
    | (s1, none) =>
      let r := waitLoop wait rest s1
      ⟨(taskItem, none) :: r.waits, r.state, r.err⟩

/-- One run of `InstantiateVAppTemplate`: requests sent, waits made, final collaborator state
and how the call ended. -/
structure InstantiateRun (σ : Type) where
  sent : List Request
  waits : List (types.Task × Option Error)
  state : σ
  outcome : Outcome (Option Error)

/-- The constant `xml.Header`. -/
def xmlHeader : String := "<?xml version=\"1.0\" encoding=\"UTF-8\"?>\n"

/-- The method `Vdc.InstantiateVAppTemplate`. -/
def InstantiateVAppTemplate {σ : Type} (env : Env)
    (wait : σ → types.Task → σ × Option Error) (vdc : Vdc)
    (template : types.InstantiateVAppTemplateParams) (s : σ) : InstantiateRun σ :=
  match env.marshal template with
  | .error err => ⟨[], [], s, .returned (some (.errorf "Error finding VAppTemplate: %#v" err))⟩
  | .ok output =>
    let requestData := xmlHeader ++ output
    match env.urlParseRequestURI vdc.HREF with
    | .error err => ⟨[], [], s, .returned (some (.errorf "error getting vdc href: %v" err))⟩
    | .ok vdcHref0 =>
      let vdcHref := { vdcHref0 with Path := vdcHref0.Path ++ "/action/instantiateVAppTemplate" }
      let req := (vdc.client.NewRequest [] "POST" vdcHref (some requestData)).HeaderAdd
        "Content-Type" "application/vnd.vmware.vcloud.instantiateVAppTemplateParams+xml"
      match env.send req with
      | .error err =>
        ⟨[req], [], s, .returned (some (.errorf "error instantiating a new template: %s" err))⟩
      | .ok resp =>
        match env.decodeVAppTemplate resp with
        | .error err =>
          ⟨[req], [], s,
            .returned (some (.errorf "error decoding orgvdcnetwork response: %s" err))⟩
        | .ok vapptemplate =>
          match vapptemplate.Tasks with
          | none => ⟨[req], [], s, .panicked⟩ -- `Tasks` is nil and `.Task` dereferences it
          | some tasks =>
            let r := waitLoop wait tasks s
            ⟨[req], r.waits, r.state, .returned r.err⟩

/-! ## Decimal texts -/

namespace strconv

/-- Value of a byte string read as decimal digits, from accumulator `n`. -/
def decValue (bs : List Nat) (n : Nat) : Nat :=
  bs.foldl (fun a b => a * 10 + (b - 48)) n

/-- Whether a byte string is a decimal integer literal: an optional sign `+` or `-` followed
by one or more decimal digits. -/
def isDecimalInteger (s : List Nat) : Bool :=
  match s with
  | [] => false
  | c0 :: rest =>
    let ds := if c0 = 43 ∨ c0 = 45 then rest else s
    !ds.isEmpty && ds.all (fun b => decide (48 ≤ b ∧ b ≤ 57))

/-- The digits of a literal: its bytes after an optional sign. -/
def digitsOf (s : List Nat) : List Nat :=
  match s with
  | [] => []
  | c0 :: rest => if c0 = 43 ∨ c0 = 45 then rest else s

/-- Whether a literal starts with the sign `-`. -/
def isNegative (s : List Nat) : Bool :=
  match s with
  | [] => false
  | c0 :: _ => decide (c0 = 45)

/-- The integer a decimal integer literal denotes. -/
def decimalValue (s : List Nat) : Int :=
  if isNegative s then -((decValue (digitsOf s) 0 : Nat) : Int)
  else ((decValue (digitsOf s) 0 : Nat) : Int)

/-- Whether an integer is in the range of the 64-bit `int`. -/
def fitsInt (z : Int) : Bool :=
  decide (-9223372036854775808 ≤ z ∧ z ≤ 9223372036854775807)

/-- The leading decimal digits of a text after its optional sign. -/
def leadingDigits (s : List Nat) : List Nat :=
  (digitsOf s).takeWhile (fun b => decide (48 ≤ b ∧ b ≤ 57))

end strconv

/-! ## Vocabulary of the statements -/

/-- The GET request for the handle's own locator that the accessors and `getLinks` build. -/
def getRequest (vat : VAppTemplate) (theUrl : URL) : Request :=
  (vat.client.NewRequest [] "GET" theUrl none).HeaderAdd "Accept"
    ("vnd.vmware.vcloud.org+xml;version=" ++ vat.client.APIVersion)

/-- The descriptor of `vat` is successfully fetched and parsed into `doc`: the locator parses,
the request passes `checkResp`, the body is read without error and it parses as XML. -/
def FetchesDocument (env : Env) (vat : VAppTemplate) (doc : Node) : Prop :=
  ∃ theUrl resp, env.urlParse vat.VAppTemplate.HREF = .ok theUrl
    ∧ env.send (getRequest vat theUrl) = .ok resp
    ∧ resp.readErr = none
    ∧ env.xmlParse resp.body = .ok doc

/-- The `rasd:Description` child elements of an item. -/
def descriptionsOf (item : Node) : List Node :=
  (xmlquery.children item).filter (xmlquery.isElementNamed "rasd:Description")

/-- No `ovf:Item` of the document has a `rasd:Description` whose text contains `substr`. -/
def NoItemMatches (doc : Node) (substr : String) : Prop :=
  ∀ item ∈ xmlquery.Find doc "ovf:Item", ∀ d ∈ descriptionsOf item,
    strings.Contains (xmlquery.InnerText d) substr = false

/-- The description of the item (its `rasd:Description` element as `SelectElement` finds it)
contains `substr`. -/
def descriptionMatches (substr : String) (item : Node) : Bool :=
  match xmlquery.SelectElement item "rasd:Description" with
  | some desc => strings.Contains (xmlquery.InnerText desc) substr
  | none => false

/-- The text of the item's `rasd:VirtualQuantity` child, when it has one. -/
def quantityText (item : Node) : Option String :=
  (xmlquery.SelectElement item "rasd:VirtualQuantity").map xmlquery.InnerText

/-- The item's description matches and the item has a `rasd:VirtualQuantity` child. -/
def matchesWithQuantity (substr : String) (item : Node) : Bool :=
  descriptionMatches substr item && (quantityText item).isSome

/-- A sample `url.Parse`: it rejects a string with an ASCII control character, as `url.Parse`
does first, and accepts the others. -/
def sampleUrlParse (s : String) : Except Error URL :=
  if s.data.any (fun c => decide (c.toNat < 0x20 ∨ c.toNat = 0x7f)) then
    .error (.external "net/url: invalid control character in URL")
  else .ok { raw := s, Path := s }

/-- A sample environment: every request is answered, the body read is `body`, optionally with
a read error, and `parsed` is what the XML parser makes of that body. -/
def sampleEnv (body : String) (readErr : Option Error) (parsed : Except Error Node) : Env :=
  { urlParse := sampleUrlParse
    urlParseRequestURI := sampleUrlParse
    send := fun _ => .ok { body := body, readErr := readErr }
    xmlParse := fun _ => parsed
    decodeTask := fun _ => .ok { HREF := "https://vcd/api/task/1", Status := "running" }
    decodeVAppTemplate := fun _ =>
      .ok { HREF := "https://vcd/api/vAppTemplate/t1", Tasks := some [] }
    marshal := fun p => .ok p.Name }

mutual
/-- The XML text of a node (sample documents need no escaping). -/
def xmlText : Node → String
  | .text d => d
  | .comment d => "<!--" ++ d ++ "-->"
  | .element n as cs =>
    "<" ++ n ++ String.join (as.map (fun a => " " ++ a.1 ++ "=\"" ++ a.2 ++ "\"")) ++ ">"
      ++ xmlTextList cs ++ "</" ++ n ++ ">"
  | .document cs => xmlTextList cs
/-- The XML text of a sequence of siblings. -/
def xmlTextList : List Node → String
  | [] => ""
  | c :: cs => xmlText c ++ xmlTextList cs
end

/-- The sample environment that delivers the XML text of `doc` and parses it into `doc`. -/
def sampleFetch (doc : Node) : Env :=
  sampleEnv (xmlText doc) none (.ok doc)

/-- A sample handle. -/
def sampleVat : VAppTemplate :=
  { VAppTemplate := { HREF := "https://vcd/api/vAppTemplate/t1", Tasks := none }
    client := { APIVersion := "27.0" } }

/-- An `ovf:Item` with a description and, optionally, a quantity. -/
def sampleItem (description : String) (quantity : Option String) : Node :=
  .element "ovf:Item" []
    ((.element "rasd:Description" [] [.text description]) ::
      (match quantity with
       | some q => [.element "rasd:VirtualQuantity" [] [.text q]]
       | none => []))

/-- A descriptor document with the given hardware items. -/
def sampleDoc (items : List Node) : Node :=
  .document [.element "ovf:Envelope" [] [.element "ovf:VirtualHardwareSection" [] items]]

/-- The value the loop returns, as a search: the converted quantity text of the first item
that matches and has a quantity child, `(0, nil)` when there is none. -/
def firstQuantity (substr : String) (items : List Node) : Int × Option Error :=
  match items.find? (matchesWithQuantity substr) with
  | some item =>
    match quantityText item with
    | some text => strconv.AtoiString text
    | none => (0, none)
  | none => (0, none)

/-- A descriptor with two disks, both with a quantity. -/
def twoDisksDoc : Node :=
  sampleDoc [sampleItem "SCSI Controller" (some "0"), sampleItem "Hard disk 1" (some "40960"),
    sampleItem "Hard disk 2" (some "1024")]

/-- A descriptor whose first disk item has no quantity child. -/
def firstDiskWithoutQuantityDoc (later : String) : Node :=
  sampleDoc [sampleItem "Hard disk 1" none, sampleItem "Hard disk 2" (some later)]

/-- A descriptor whose first memory item has no quantity child and whose second has one. -/
def memoryDoc : Node :=
  sampleDoc [sampleItem "Memory Size" none, sampleItem "Number of Virtual CPUs" (some "2"),
    sampleItem "Memory Size" (some "4096")]

/-- A descriptor whose first CPU item with a quantity carries the text "two"; a later CPU
item carries "4". -/
def badCpuDoc : Node :=
  sampleDoc [sampleItem "Number of Virtual CPUs" none,
    sampleItem "Number of Virtual CPUs" (some "two"),
    sampleItem "Number of Virtual CPUs" (some "4")]

/-! ## Vocabulary of the statements: instantiation -/

/-- The POST request `InstantiateVAppTemplate` builds from the parsed datacenter locator and
the marshalled parameters. -/
def instantiateRequest (vdc : Vdc) (vdcHref0 : URL) (output : String) : Request :=
  (vdc.client.NewRequest [] "POST"
      { vdcHref0 with Path := vdcHref0.Path ++ "/action/instantiateVAppTemplate" }
      (some (xmlHeader ++ output))).HeaderAdd
    "Content-Type" "application/vnd.vmware.vcloud.instantiateVAppTemplateParams+xml"

/-- The request and the response decode of `InstantiateVAppTemplate` succeed and the decoded
response lists `tasks`. -/
def InstantiateResponds (env : Env) (vdc : Vdc) (template : types.InstantiateVAppTemplateParams)
    (tasks : List types.Task) : Prop :=
  ∃ output vdcHref0 resp vapptemplate, env.marshal template = .ok output
    ∧ env.urlParseRequestURI vdc.HREF = .ok vdcHref0
    ∧ env.send (instantiateRequest vdc vdcHref0 output) = .ok resp
    ∧ env.decodeVAppTemplate resp = .ok vapptemplate
    ∧ vapptemplate.Tasks = some tasks

/-- Three tasks of a sample instantiation response. -/
def sampleTasks : List types.Task :=
  [{ HREF := "https://vcd/api/task/1", Status := "running" },
   { HREF := "https://vcd/api/task/2", Status := "running" },
   { HREF := "https://vcd/api/task/3", Status := "queued" }]

/-- The body of a sample instantiation response. -/
def sampleInstantiateBody : String :=
  "<VAppTemplate href=\"https://vcd/api/vAppTemplate/t1\"><Tasks>"
    ++ "<Task href=\"https://vcd/api/task/1\" status=\"running\"/>"
    ++ "<Task href=\"https://vcd/api/task/2\" status=\"running\"/>"
    ++ "<Task href=\"https://vcd/api/task/3\" status=\"queued\"/>"
    ++ "</Tasks></VAppTemplate>"

/-- A sample environment whose instantiation response lists `sampleTasks`. -/
def sampleInstantiateEnv : Env :=
  { sampleEnv sampleInstantiateBody none (.error (.external "not a descriptor")) with
    decodeVAppTemplate := fun _ =>
      .ok { HREF := "https://vcd/api/vAppTemplate/t1", Tasks := some sampleTasks } }

/-- The collaborator state after `task.WaitTaskCompletion()` has been called for each of
`tasks` in turn, starting in state `s`. -/
def stateAfter {σ : Type} (wait : σ → types.Task → σ × Option Error) (s : σ)
    (tasks : List types.Task) : σ :=
  tasks.foldl (fun s1 t => (wait s1 t).1) s

/-- A sample `WaitTaskCompletion`: the state counts the calls made; the wait on the task with
locator `failing` fails, every other wait succeeds. -/
def sampleWait (failing : String) (calls : Nat) (t : types.Task) : Nat × Option Error :=
  (calls + 1,
    if t.HREF = failing then some (.external "task did not complete successfully")
    else none)

/-- A sample datacenter handle. -/
def sampleVdc : Vdc :=
  { HREF := "https://vcd/api/vdc/1", client := { APIVersion := "27.0" } }

/-- Sample instantiation parameters. -/
def sampleParams : types.InstantiateVAppTemplateParams :=
  { Name := "vapp1", Deploy := false, PowerOn := false, Description := "" }

/-! ## Vocabulary of the statements: link discovery -/

/-- The final `/`-separated segment of a locator: `segments[len(segments)-1]` for
`segments := strings.Split(href, "/")`. -/
def lastSegment (href : String) : String :=
  (strings.Split href '/').getLastD ""

/-- The link has a non-empty `href` whose final segment is `k`. -/
def linkHasKey (k : String) (n : Node) : Bool :=
  decide (xmlquery.SelectAttr n "href" ≠ "")
    && decide (lastSegment (xmlquery.SelectAttr n "href") = k)

/-- The value the link loop leaves under key `k`: the `href` of the last link, in document
order, that has a non-empty `href` with final segment `k`. -/
def lastLinkFor (k : String) (links : List Node) : Option String :=
  (links.reverse.find? (linkHasKey k)).map (fun n => xmlquery.SelectAttr n "href")

/-- A template document with a disks link and a metadata link. -/
def twoLinksDoc : Node :=
  .document [.element "VAppTemplate" [("name", "t1")]
    [.element "vcloud:Link"
        [("rel", "down"), ("href", "https://vcd/api/vAppTemplate/t1/disks")] [],
     .element "vcloud:Link"
        [("rel", "down"), ("href", "https://vcd/api/vAppTemplate/t1/metadata")] []]]

/-- A template document whose only link has an empty `href` attribute. -/
def emptyHrefDoc : Node :=
  .document [.element "VAppTemplate" [("name", "t1")]
    [.element "vcloud:Link" [("rel", "down"), ("href", "")] []]]

/-! # Theorems -/

/-! ## `strings.Contains` is substring containment -/

namespace strings

theorem startsWith_iff_isPrefix (s p : List Nat) : startsWith s p = true ↔ p <+: s := by
  induction s generalizing p with
  | nil =>
    cases p with
    | nil => simp [startsWith]
    | cons b p => simp [startsWith]
  | cons a s ih =>
    cases p with
    | nil => simp [startsWith]
    | cons b p =>
      simp only [startsWith, Bool.and_eq_true, beq_iff_eq, ih, List.cons_prefix_cons]
      constructor
      · rintro ⟨h1, h2⟩; exact ⟨h1.symm, h2⟩
      · rintro ⟨h1, h2⟩; exact ⟨h1.symm, h2⟩

/-- The byte search is substring containment: `substr` occurs in `s` as a contiguous run. -/
theorem containsBytes_iff_isInfix (s substr : List Nat) :
    containsBytes s substr = true ↔ substr <:+: s := by
  induction s with
  | nil =>
    rw [containsBytes, startsWith_iff_isPrefix]
    simp
  | cons a s ih =>
    rw [containsBytes, Bool.or_eq_true, startsWith_iff_isPrefix, ih, List.infix_cons_iff]

end strings

/-! ## `strconv.Atoi` on decimal representations and on other texts -/

namespace strconv

theorem decValue_nil (n : Nat) : decValue [] n = n := rfl

theorem decValue_cons (b : Nat) (bs : List Nat) (n : Nat) :
    decValue (b :: bs) n = decValue bs (n * 10 + (b - 48)) := rfl

theorem decValue_append (xs ys : List Nat) (n : Nat) :
    decValue (xs ++ ys) n = decValue ys (decValue xs n) := by
  simp [decValue, List.foldl_append]

theorem le_decValue (bs : List Nat) (n : Nat) : n ≤ decValue bs n := by
  induction bs generalizing n with
  | nil => simp [decValue]
  | cons b bs ih =>
    rw [decValue_cons]
    have := ih (n * 10 + (b - 48))
    omega

theorem parseUintLoop_digits (bs : List Nat) (n : Nat)
    (hd : ∀ b ∈ bs, 48 ≤ b ∧ b ≤ 57) (hv : decValue bs n < 2 ^ 64) :
    parseUintLoop bs n = (decValue bs n, none) := by
  induction bs generalizing n with
  | nil => simp [parseUintLoop, decValue]
  | cons b bs ih =>
    have hb := hd b (List.mem_cons_self _ _)
    rw [decValue_cons] at hv ⊢
    have hle := le_decValue bs (n * 10 + (b - 48))
    have h64 : (2 : Nat) ^ 64 = 18446744073709551616 := by norm_num
    rw [h64] at hv
    have ih1 := ih (n * 10 + (b - 48)) (fun x hx => hd x (List.mem_cons_of_mem _ hx))
      (by rw [h64]; exact hv)
    have e1 : toUint64 (n * 10) = n * 10 := by
      unfold toUint64; rw [h64]; omega
    have e2 : toUint64 (n * 10 + (b - 48)) = n * 10 + (b - 48) := by
      unfold toUint64; rw [h64]; omega
    have e3 : toUint64 (toUint64 (2 ^ intSize) + 2 ^ 64 - 1) = 18446744073709551615 := by
      unfold toUint64 intSize; norm_num
    have e4 : maxUint64 / 10 + 1 = 1844674407370955162 := by
      unfold maxUint64; norm_num
    unfold parseUintLoop
    simp only [hb.1, hb.2, and_self, if_true, e1, e2, e3, e4]
    have c1 : ¬ (b - 48 ≥ 10) := by omega
    have c2 : ¬ (n ≥ 1844674407370955162) := by omega
    have c3 : ¬ (n * 10 + (b - 48) < n * 10 ∨ n * 10 + (b - 48) > 18446744073709551615) := by
      omega
    simp only [c1, c2, c3, if_false]
    exact ih1

theorem toInt64_of_range (z : Int) (h1 : -9223372036854775808 ≤ z)
    (h2 : z ≤ 9223372036854775807) : toInt64 z = z := by
  unfold toInt64
  have h63 : (2 : Int) ^ 63 = 9223372036854775808 := by norm_num
  have h64 : (2 : Int) ^ 64 = 18446744073709551616 := by norm_num
  rw [h63, h64]
  omega

theorem atoiFastLoop_digits (bs : List Nat) (n : Nat)
    (hd : ∀ b ∈ bs, 48 ≤ b ∧ b ≤ 57) (hv : decValue bs n < 2 ^ 63) :
    atoiFastLoop bs (n : Int) = some ((decValue bs n : Nat) : Int) := by
  induction bs generalizing n with
  | nil => simp [atoiFastLoop, decValue]
  | cons b bs ih =>
    have hb := hd b (List.mem_cons_self _ _)
    rw [decValue_cons] at hv ⊢
    have hle := le_decValue bs (n * 10 + (b - 48))
    have h63 : (2 : Nat) ^ 63 = 9223372036854775808 := by norm_num
    rw [h63] at hv
    have ih1 := ih (n * 10 + (b - 48)) (fun x hx => hd x (List.mem_cons_of_mem _ hx))
      (by rw [h63]; exact hv)
    have e1 : (b + 256 - 48) % 256 = b - 48 := by omega
    have c1 : ¬ (b - 48 > 9) := by omega
    unfold atoiFastLoop
    simp only [e1, c1, if_false]
    have e2 : toInt64 ((n : Int) * 10 + ((b - 48 : Nat) : Int))
        = ((n * 10 + (b - 48) : Nat) : Int) := by
      rw [toInt64_of_range] <;> push_cast <;> omega
    rw [e2]
    exact ih1

theorem utf8Encode_digitChar (d : Nat) (h : d < 10) :
    utf8Encode (Nat.digitChar d) = [48 + d] := by
  interval_cases d <;> decide

theorem goBytes_toDigitsCore (fuel n : Nat) (acc : List Char) (h : n < fuel) :
    ∃ bs : List Nat, (Nat.toDigitsCore 10 fuel n acc).flatMap utf8Encode
        = bs ++ acc.flatMap utf8Encode
      ∧ bs ≠ [] ∧ (∀ b ∈ bs, 48 ≤ b ∧ b ≤ 57)
      ∧ ∀ a, decValue bs a = a * 10 ^ bs.length + n := by
  induction fuel generalizing n acc with
  | zero => omega
  | succ fuel ih =>
    have hd : n % 10 < 10 := Nat.mod_lt _ (by norm_num)
    unfold Nat.toDigitsCore
    by_cases h0 : n / 10 = 0
    · refine ⟨[48 + n % 10], ?_, by simp, ?_, ?_⟩
      · simp [h0, List.flatMap_cons, utf8Encode_digitChar _ hd]
      · intro b hb
        simp at hb
        omega
      · intro a
        simp [decValue]
        omega
    · have hlt : n / 10 < fuel := by omega
      obtain ⟨bs, e, hne, hdig, hval⟩ := ih (n / 10) (Nat.digitChar (n % 10) :: acc) hlt
      refine ⟨bs ++ [48 + n % 10], ?_, by simp, ?_, ?_⟩
      · simp only [h0, if_false]
        rw [e]
        simp [List.flatMap_cons, utf8Encode_digitChar _ hd]
      · intro b hb
        rcases List.mem_append.1 hb with hb | hb
        · exact hdig b hb
        · simp at hb
          omega
      · intro a
        rw [decValue_append, hval a]
        simp [decValue, pow_succ]
        have := Nat.div_add_mod n 10
        ring_nf
        omega

theorem goBytes_natRepr (m : Nat) :
    ∃ bs : List Nat, goBytes (Nat.repr m) = bs ∧ bs ≠ []
      ∧ (∀ b ∈ bs, 48 ≤ b ∧ b ≤ 57) ∧ decValue bs 0 = m := by
  obtain ⟨bs, e, hne, hdig, hval⟩ := goBytes_toDigitsCore (m + 1) m [] (Nat.lt_succ_self m)
  refine ⟨bs, ?_, hne, hdig, ?_⟩
  · simpa [goBytes, Nat.repr, Nat.toDigits, List.asString] using e
  · simpa using hval 0

theorem toInt64_neg_toInt64 (v : Nat) (h : v ≤ 9223372036854775808) :
    toInt64 (-(toInt64 (v : Int))) = -(v : Int) := by
  unfold toInt64
  have h63 : (2 : Int) ^ 63 = 9223372036854775808 := by norm_num
  have h64 : (2 : Int) ^ 64 = 18446744073709551616 := by norm_num
  rw [h63, h64]
  omega

/-- On a non-empty run of decimal digits whose value fits `int`, `Atoi` returns the value. -/
theorem Atoi_digits (bs : List Nat) (hne : bs ≠ []) (hd : ∀ b ∈ bs, 48 ≤ b ∧ b ≤ 57)
    (hv : decValue bs 0 < 9223372036854775808) :
    Atoi bs = (((decValue bs 0 : Nat) : Int), none) := by
  obtain ⟨c0, rest, rfl⟩ := List.exists_cons_of_ne_nil hne
  have hc := hd c0 (List.mem_cons_self _ _)
  have n1 : ¬ (c0 = 45) := by omega
  have n2 : ¬ (c0 = 43) := by omega
  have h63 : (2 : Nat) ^ 63 = 9223372036854775808 := by norm_num
  have hfast := atoiFastLoop_digits (c0 :: rest) 0 hd (by rw [h63]; exact hv)
  have hslow := parseUintLoop_digits (c0 :: rest) 0 hd (by
    have : (2 : Nat) ^ 64 = 18446744073709551616 := by norm_num
    rw [this]; omega)
  have hti : toInt64 ((decValue (c0 :: rest) 0 : Nat) : Int)
      = ((decValue (c0 :: rest) 0 : Nat) : Int) :=
    toInt64_of_range _ (by omega) (by omega)
  simp only [Nat.cast_zero] at hfast
  unfold Atoi
  by_cases hl : rest.length + 1 < 19
  · simp [intSize, hl, n1, n2, hfast]
  · have hc2 : ¬ (decValue (c0 :: rest) 0 ≥ 9223372036854775808) := by omega
    simp [ParseInt, ParseUint, n1, n2, hslow, intSize, hti, hc2, hl]

/-- On `-` followed by a non-empty run of decimal digits whose value is at most `2^63`, `Atoi`
returns the negated value. -/
theorem Atoi_neg_digits (bs : List Nat) (hne : bs ≠ []) (hd : ∀ b ∈ bs, 48 ≤ b ∧ b ≤ 57)
    (hv : decValue bs 0 < 9223372036854775808) :
    Atoi (45 :: bs) = (-((decValue bs 0 : Nat) : Int), none) := by
  have h63 : (2 : Nat) ^ 63 = 9223372036854775808 := by norm_num
  have hfast := atoiFastLoop_digits bs 0 hd (by rw [h63]; exact hv)
  have hslow := parseUintLoop_digits bs 0 hd (by
    have : (2 : Nat) ^ 64 = 18446744073709551616 := by norm_num
    rw [this]; omega)
  have hti : toInt64 (-((decValue bs 0 : Nat) : Int)) = -((decValue bs 0 : Nat) : Int) :=
    toInt64_of_range _ (by omega) (by omega)
  have hti2 := toInt64_neg_toInt64 (decValue bs 0) (by omega)
  have hlen : ¬ (bs.length < 1) := by
    cases bs with
    | nil => exact absurd rfl hne
    | cons b bs => simp
  simp only [Nat.cast_zero] at hfast
  unfold Atoi
  by_cases hl : bs.length + 1 < 19
  · simp [intSize, hl, hne, hfast, hti]
  · have hc2 : ¬ (9223372036854775808 < decValue bs 0) := by omega
    simp [ParseInt, ParseUint, hne, hslow, intSize, hti, hti2, hc2, hl]

theorem Atoi_minInt :
    Atoi (goBytes (Int.repr (-9223372036854775808))) = (-9223372036854775808, none) := by
  decide

/-- The function `Atoi` inverts the decimal representation `Int.repr` on the range of `int`. -/
theorem Atoi_repr (n : Int) (h1 : -9223372036854775808 ≤ n) (h2 : n ≤ 9223372036854775807) :
    Atoi (goBytes (Int.repr n)) = (n, none) := by
  cases n with
  | ofNat m =>
    obtain ⟨bs, e, hne, hdig, hval⟩ := goBytes_natRepr m
    have hm : (Int.ofNat m).repr = Nat.repr m := rfl
    have h2' : (m : Int) ≤ 9223372036854775807 := h2
    rw [hm, e, Atoi_digits bs hne hdig (by rw [hval]; omega), hval]
    rfl
  | negSucc k =>
    by_cases hk : k + 1 = 9223372036854775808
    · have : Int.negSucc k = -9223372036854775808 := by
        rw [Int.negSucc_eq]; omega
      rw [this]
      exact Atoi_minInt
    · obtain ⟨bs, e, hne, hdig, hval⟩ := goBytes_natRepr (k + 1)
      have hm : goBytes (Int.negSucc k).repr = 45 :: goBytes (Nat.repr (k + 1)) := by
        have hminus : utf8Encode '-' = [45] := by decide
        simp [Int.repr, goBytes, List.flatMap_cons, hminus]
      have h1' : -9223372036854775808 ≤ -((k : Int) + 1) := by
        rw [Int.negSucc_eq] at h1; exact h1
      rw [hm, e, Atoi_neg_digits bs hne hdig (by rw [hval]; omega), hval, Int.negSucc_eq]
      push_cast
      rfl

theorem utf8Encode_lt (c : Char) : ∀ b ∈ utf8Encode c, b < 256 := by
  have hv : c.toNat < 1114112 := by
    have := c.valid
    unfold Nat.isValidChar at this
    show c.val.toNat < 1114112
    omega
  unfold utf8Encode
  intro b hb
  simp only at hb
  split at hb
  · simp at hb; omega
  · split at hb
    · simp at hb; omega
    · split at hb
      · simp at hb; omega
      · simp at hb; omega

theorem goBytes_lt (s : String) : ∀ b ∈ goBytes s, b < 256 := by
  intro b hb
  unfold goBytes at hb
  obtain ⟨c, _, hc⟩ := List.mem_flatMap.1 hb
  exact utf8Encode_lt c b hc

theorem atoiFastLoop_some (bs : List Nat) (n v : Int) (hbyte : ∀ b ∈ bs, b < 256)
    (h : atoiFastLoop bs n = some v) : ∀ b ∈ bs, 48 ≤ b ∧ b ≤ 57 := by
  induction bs generalizing n with
  | nil => simp
  | cons b bs ih =>
    have hb256 := hbyte b (List.mem_cons_self _ _)
    unfold atoiFastLoop at h
    by_cases hb : (b + 256 - 48) % 256 > 9
    · rw [if_pos hb] at h
      cases h
    · rw [if_neg hb] at h
      intro x hx
      rcases List.mem_cons.1 hx with rfl | hx
      · omega
      · exact ih _ (fun y hy => hbyte y (List.mem_cons_of_mem _ hy)) h x hx

theorem parseUintLoop_cases (bs : List Nat) (n : Nat) :
    ((parseUintLoop bs n).2 = none ∧ ∀ b ∈ bs, 48 ≤ b ∧ b ≤ 57)
      ∨ parseUintLoop bs n = (0, some .ErrSyntax)
      ∨ parseUintLoop bs n = (18446744073709551615, some .ErrRange) := by
  induction bs generalizing n with
  | nil => left; simp [parseUintLoop]
  | cons b bs ih =>
    have e3 : toUint64 (toUint64 (2 ^ intSize) + 2 ^ 64 - 1) = 18446744073709551615 := by
      unfold toUint64 intSize; norm_num
    unfold parseUintLoop
    simp only [e3]
    by_cases hb : 48 ≤ b ∧ b ≤ 57
    · have c1 : ¬ (b - 48 ≥ 10) := by omega
      simp only [hb, and_self, if_true, c1, if_false]
      split
      · right; right; rfl
      · split
        · right; right; rfl
        · rcases ih (toUint64 (toUint64 (n * 10) + (b - 48))) with h | h | h
          · left
            refine ⟨h.1, ?_⟩
            intro x hx
            rcases List.mem_cons.1 hx with rfl | hx
            · exact hb
            · exact h.2 x hx
          · right; left; exact h
          · right; right; exact h
    · right; left
      simp only [hb, if_false]
      split
      · rfl
      · rename_i d hd
        split at hd
        · have hd' := Option.some.inj hd
          have : d ≥ 10 := by omega
          simp [this]
        · cases hd

theorem toInt64_maxInt : toInt64 (((2 ^ (intSize - 1) - 1 : Nat)) : Int) = 9223372036854775807 := by
  decide

theorem toInt64_minInt : toInt64 (-((2 ^ (intSize - 1) : Nat) : Int)) = -9223372036854775808 := by
  decide

theorem ParseUint_cases (bs : List Nat) :
    ((ParseUint bs).2 = none ∧ bs ≠ [] ∧ ∀ b ∈ bs, 48 ≤ b ∧ b ≤ 57)
      ∨ ParseUint bs = (0, some .ErrSyntax)
      ∨ ParseUint bs = (18446744073709551615, some .ErrRange) := by
  unfold ParseUint
  by_cases h : bs = []
  · right; left; simp [h]
  · simp only [h, if_false]
    rcases parseUintLoop_cases bs 0 with h1 | h1 | h1
    · left; exact ⟨h1.1, h, h1.2⟩
    · right; left; exact h1
    · right; right; exact h1

theorem ParseInt_cases (s : List Nat) :
    ((ParseInt s).2 = none ∧ isDecimalInteger s = true)
      ∨ ParseInt s = (0, some .ErrSyntax)
      ∨ ParseInt s = (9223372036854775807, some .ErrRange)
      ∨ ParseInt s = (-9223372036854775808, some .ErrRange) := by
  cases s with
  | nil => right; left; rfl
  | cons c0 rest =>
    have hcut : (2 : Nat) ^ (intSize - 1) = 9223372036854775808 := by decide
    unfold ParseInt
    simp only
    generalize hs1 : (if c0 = 43 then rest else if c0 = 45 then rest else c0 :: rest) = s1
    rcases ParseUint_cases s1 with ⟨h1, hne, hdig⟩ | h1 | h1
    · have hns : ¬ ((ParseUint s1).2 = some NumErr.ErrSyntax) := by rw [h1]; simp
      rw [if_neg hns]
      split
      · right; right; left
        rw [toInt64_maxInt]
      · split
        · right; right; right
          rw [toInt64_minInt]
        · left
          refine ⟨rfl, ?_⟩
          unfold isDecimalInteger
          have hs1' : (if c0 = 43 ∨ c0 = 45 then rest else c0 :: rest) = s1 := by
            rw [← hs1]
            by_cases a : c0 = 43 <;> by_cases b : c0 = 45 <;> simp [a, b]
          simp only [hs1']
          simp only [Bool.and_eq_true, Bool.not_eq_true', List.all_eq_true, decide_eq_true_eq]
          refine ⟨?_, hdig⟩
          cases s1 with
          | nil => exact absurd rfl hne
          | cons _ _ => rfl
    · right; left
      simp [h1]
    · rw [h1]
      have hns : ¬ (some NumErr.ErrRange = some NumErr.ErrSyntax) := by decide
      simp only [hns, if_false, hcut]
      by_cases hneg : c0 = 45
      · right; right; right
        simp [hneg, intSize]
        decide
      · right; right; left
        simp [hneg, intSize]
        decide

/-- Every return of `Atoi`: a nil error on a decimal integer literal, or `(0, ErrSyntax)`, or
a range error with the `int` bound of the sign. -/
theorem Atoi_cases (s : List Nat) (hbyte : ∀ b ∈ s, b < 256) :
    ((Atoi s).2 = none ∧ isDecimalInteger s = true)
      ∨ Atoi s = (0, some .ErrSyntax)
      ∨ Atoi s = (9223372036854775807, some .ErrRange)
      ∨ Atoi s = (-9223372036854775808, some .ErrRange) := by
  have hslow : ((toInt64 (ParseInt s).1, (ParseInt s).2).2 = none ∧ isDecimalInteger s = true)
      ∨ (toInt64 (ParseInt s).1, (ParseInt s).2) = (0, some .ErrSyntax)
      ∨ (toInt64 (ParseInt s).1, (ParseInt s).2) = (9223372036854775807, some .ErrRange)
      ∨ (toInt64 (ParseInt s).1, (ParseInt s).2) = (-9223372036854775808, some .ErrRange) := by
    rcases ParseInt_cases s with h | h | h | h
    · left; exact h
    · right; left; rw [h]; decide
    · right; right; left; rw [h]; decide
    · right; right; right; rw [h]; decide
  cases s with
  | nil => right; left; decide
  | cons c0 rest =>
    unfold Atoi
    by_cases hl : rest.length + 1 < 19
    · have hcond : ((intSize == 32 && (decide (0 < (c0 :: rest).length)
          && decide ((c0 :: rest).length < 10))) ||
          (intSize == 64 && (decide (0 < (c0 :: rest).length)
          && decide ((c0 :: rest).length < 19)))) = true := by
        simp [intSize, hl]
      simp only [hcond, if_true]
      by_cases hsign : c0 = 45 ∨ c0 = 43
      · simp only [hsign, if_true, true_and]
        by_cases hr : rest.length < 1
        · right; left; simp [hr]
        · rw [if_neg hr]
          cases hf : atoiFastLoop rest 0 with
          | none => right; left; rfl
          | some v =>
            left
            refine ⟨rfl, ?_⟩
            have hdig := atoiFastLoop_some rest 0 v
              (fun y hy => hbyte y (List.mem_cons_of_mem _ hy)) hf
            unfold isDecimalInteger
            have hsign' : c0 = 43 ∨ c0 = 45 := hsign.symm
            simp only [hsign', if_true, Bool.and_eq_true, Bool.not_eq_true', List.all_eq_true,
              decide_eq_true_eq]
            refine ⟨?_, hdig⟩
            cases rest with
            | nil => simp at hr
            | cons _ _ => rfl
      · simp only [hsign, if_false, false_and]
        cases hf : atoiFastLoop (c0 :: rest) 0 with
        | none => right; left; rfl
        | some v =>
          left
          refine ⟨rfl, ?_⟩
          have hdig := atoiFastLoop_some (c0 :: rest) 0 v hbyte hf
          unfold isDecimalInteger
          have hsign' : ¬ (c0 = 43 ∨ c0 = 45) := fun h => hsign h.symm
          simp only [hsign', if_false, Bool.and_eq_true, Bool.not_eq_true', List.all_eq_true,
            decide_eq_true_eq]
          exact ⟨rfl, hdig⟩
    · have hcond : ¬ (((intSize == 32 && (decide (0 < (c0 :: rest).length)
          && decide ((c0 :: rest).length < 10))) ||
          (intSize == 64 && (decide (0 < (c0 :: rest).length)
          && decide ((c0 :: rest).length < 19)))) = true) := by
        simp [intSize, hl]
      simp only [hcond, if_false]
      exact hslow

/-- A byte string shorter than 19 bytes never makes `Atoi` report a range error. -/
theorem Atoi_short (s : List Nat) (hlen : s.length < 19) :
    (Atoi s).2 ≠ some .ErrRange := by
  cases s with
  | nil => decide
  | cons c0 rest =>
    unfold Atoi
    have hcond : ((intSize == 32 && (decide (0 < (c0 :: rest).length)
        && decide ((c0 :: rest).length < 10))) ||
        (intSize == 64 && (decide (0 < (c0 :: rest).length)
        && decide ((c0 :: rest).length < 19)))) = true := by
      simp [intSize]
      simpa using hlen
    simp only [hcond, if_true]
    generalize (if c0 = 45 ∨ c0 = 43 then rest else c0 :: rest) = s1
    by_cases hg : (c0 = 45 ∨ c0 = 43) ∧ s1.length < 1
    · rw [if_pos hg]
      decide
    · rw [if_neg hg]
      cases atoiFastLoop s1 0 with
      | none => simp
      | some v => simp

theorem decValue_lt_pow (bs : List Nat) (n : Nat) (hd : ∀ b ∈ bs, 48 ≤ b ∧ b ≤ 57) :
    decValue bs n < (n + 1) * 10 ^ bs.length := by
  induction bs generalizing n with
  | nil => simp [decValue]
  | cons b bs ih =>
    have hb := hd b (List.mem_cons_self _ _)
    rw [decValue_cons]
    have h1 := ih (n * 10 + (b - 48)) (fun x hx => hd x (List.mem_cons_of_mem _ hx))
    have h2 : (n * 10 + (b - 48) + 1) * 10 ^ bs.length ≤ (n + 1) * 10 ^ (b :: bs).length := by
      rw [List.length_cons, pow_succ]
      have : n * 10 + (b - 48) + 1 ≤ (n + 1) * 10 := by omega
      calc (n * 10 + (b - 48) + 1) * 10 ^ bs.length
          ≤ ((n + 1) * 10) * 10 ^ bs.length := Nat.mul_le_mul_right _ this
        _ = (n + 1) * (10 ^ bs.length * 10) := by ring
    omega

theorem decValue_short (bs : List Nat) (hd : ∀ b ∈ bs, 48 ≤ b ∧ b ≤ 57)
    (hlen : bs.length < 19) : decValue bs 0 < 9223372036854775808 := by
  have h1 := decValue_lt_pow bs 0 hd
  have h2 : 10 ^ bs.length ≤ 10 ^ 18 := Nat.pow_le_pow_right (by norm_num) (by omega)
  have h3 : (10 : Nat) ^ 18 = 1000000000000000000 := by norm_num
  omega

theorem parseUintLoop_overflow (bs : List Nat) (n : Nat)
    (hd : ∀ b ∈ bs, 48 ≤ b ∧ b ≤ 57) (hn : n < 18446744073709551616)
    (hv : 18446744073709551616 ≤ decValue bs n) :
    parseUintLoop bs n = (18446744073709551615, some .ErrRange) := by
  induction bs generalizing n with
  | nil =>
    rw [decValue_nil] at hv
    omega
  | cons b bs ih =>
    have hb := hd b (List.mem_cons_self _ _)
    rw [decValue_cons] at hv
    have h64 : (2 : Nat) ^ 64 = 18446744073709551616 := by norm_num
    have e3 : toUint64 (toUint64 (2 ^ intSize) + 2 ^ 64 - 1) = 18446744073709551615 := by
      unfold toUint64 intSize; norm_num
    have e4 : maxUint64 / 10 + 1 = 1844674407370955162 := by
      unfold maxUint64; norm_num
    have c1 : ¬ (b - 48 ≥ 10) := by omega
    unfold parseUintLoop
    simp only [hb.1, hb.2, and_self, if_true, e3, e4, c1, if_false]
    by_cases hc : n ≥ 1844674407370955162
    · rw [if_pos hc]
    · rw [if_neg hc]
      have e1 : toUint64 (n * 10) = n * 10 := by
        unfold toUint64; rw [h64]; omega
      rw [e1]
      by_cases ho : n * 10 + (b - 48) < 18446744073709551616
      · have e2 : toUint64 (n * 10 + (b - 48)) = n * 10 + (b - 48) := by
          unfold toUint64; rw [h64]; omega
        rw [e2]
        have c3 : ¬ (n * 10 + (b - 48) < n * 10 ∨ n * 10 + (b - 48) > 18446744073709551615) := by
          omega
        rw [if_neg c3]
        exact ih (n * 10 + (b - 48)) (fun x hx => hd x (List.mem_cons_of_mem _ hx)) ho hv
      · have c3 : toUint64 (n * 10 + (b - 48)) < n * 10
            ∨ toUint64 (n * 10 + (b - 48)) > 18446744073709551615 := by
          left
          unfold toUint64; rw [h64]; omega
        rw [if_pos c3]

/-- The result of `ParseUint(s, 10, 0)` on a non-empty run of decimal digits. -/
theorem ParseUint_digits (bs : List Nat) (hne : bs ≠ [])
    (hd : ∀ b ∈ bs, 48 ≤ b ∧ b ≤ 57) :
    ParseUint bs = if decValue bs 0 < 18446744073709551616 then (decValue bs 0, none)
      else (18446744073709551615, some .ErrRange) := by
  unfold ParseUint
  rw [if_neg hne]
  by_cases h : decValue bs 0 < 18446744073709551616
  · rw [if_pos h]
    exact parseUintLoop_digits bs 0 hd (by
      have : (2 : Nat) ^ 64 = 18446744073709551616 := by norm_num
      rw [this]; exact h)
  · rw [if_neg h]
    exact parseUintLoop_overflow bs 0 hd (by norm_num) (by omega)

theorem ParseInt_literal (c0 : Nat) (rest ds : List Nat)
    (hds : (if c0 = 43 then rest else if c0 = 45 then rest else c0 :: rest) = ds)
    (hne : ds ≠ []) (hd : ∀ b ∈ ds, 48 ≤ b ∧ b ≤ 57) :
    ParseInt (c0 :: rest)
      = if c0 = 45 then
          (if decValue ds 0 > 9223372036854775808 then (-9223372036854775808, some .ErrRange)
            else (-((decValue ds 0 : Nat) : Int), none))
        else
          (if decValue ds 0 ≥ 9223372036854775808 then (9223372036854775807, some .ErrRange)
            else (((decValue ds 0 : Nat) : Int), none)) := by
  have hcut : (2 : Nat) ^ (intSize - 1) = 9223372036854775808 := by decide
  unfold ParseInt
  simp only [hds, ParseUint_digits ds hne hd, hcut]
  by_cases h64 : decValue ds 0 < 18446744073709551616
  · simp only [h64, if_true]
    have hns : ¬ ((none : Option NumErr) = some NumErr.ErrSyntax) := by simp
    simp only [hns, if_false]
    by_cases hneg : c0 = 45
    · simp only [hneg, decide_True, Bool.not_true, Bool.false_and, Bool.true_and, if_true]
      by_cases hv : decValue ds 0 > 9223372036854775808
      · simp [hv]
        decide
      · have := toInt64_neg_toInt64 (decValue ds 0) (by omega)
        simp [hv, this]
    · simp only [hneg, decide_False, Bool.not_false, Bool.true_and, Bool.false_and, if_false]
      by_cases hv : decValue ds 0 ≥ 9223372036854775808
      · simp [hv]
        decide
      · have := toInt64_of_range ((decValue ds 0 : Nat) : Int) (by omega) (by omega)
        simp [hv, this]
  · simp only [h64, if_false]
    have hns : ¬ (some NumErr.ErrRange = some NumErr.ErrSyntax) := by decide
    simp only [hns, if_false]
    by_cases hneg : c0 = 45
    · have hv : decValue ds 0 > 9223372036854775808 := by omega
      simp [hneg, hv]
      decide
    · have hv : decValue ds 0 ≥ 9223372036854775808 := by omega
      simp [hneg, hv]
      decide


/-- The function `Atoi` on a decimal integer literal: the value it denotes when that fits
`int`, and otherwise a range error with the `int` bound of the sign. -/
theorem Atoi_literal (s : List Nat) (hvalid : isDecimalInteger s = true) :
    Atoi s = if fitsInt (decimalValue s) then (decimalValue s, none)
      else if isNegative s then (-9223372036854775808, some .ErrRange)
      else (9223372036854775807, some .ErrRange) := by
  cases s with
  | nil => simp [isDecimalInteger] at hvalid
  | cons c0 rest =>
    unfold isDecimalInteger at hvalid
    simp only [Bool.and_eq_true, Bool.not_eq_true', List.all_eq_true, decide_eq_true_eq]
      at hvalid
    generalize hds : (if c0 = 43 ∨ c0 = 45 then rest else c0 :: rest) = ds at hvalid
    obtain ⟨hemp, hd⟩ := hvalid
    have hne : ds ≠ [] := by
      intro h
      rw [h] at hemp
      cases hemp
    have hds1 : (if c0 = 43 then rest else if c0 = 45 then rest else c0 :: rest) = ds := by
      rw [← hds]
      by_cases a : c0 = 43 <;> by_cases b : c0 = 45 <;> simp [a, b]
    have hds2 : (if c0 = 45 ∨ c0 = 43 then rest else c0 :: rest) = ds := by
      rw [← hds]
      by_cases a : c0 = 43 <;> by_cases b : c0 = 45 <;> simp [a, b]
    have hlen : ds.length ≤ rest.length + 1 := by
      rw [← hds]
      split <;> simp
    have hval : decimalValue (c0 :: rest)
        = if c0 = 45 then -((decValue ds 0 : Nat) : Int) else ((decValue ds 0 : Nat) : Int) := by
      unfold decimalValue isNegative digitsOf
      simp only [hds, decide_eq_true_eq]
    have hneg : isNegative (c0 :: rest) = decide (c0 = 45) := rfl
    rw [hval, hneg]
    unfold fitsInt
    by_cases hl : rest.length + 1 < 19
    · have hv := decValue_short ds hd (by omega)
      have h63 : (2 : Nat) ^ 63 = 9223372036854775808 := by norm_num
      have hfast := atoiFastLoop_digits ds 0 hd (by rw [h63]; exact hv)
      simp only [Nat.cast_zero] at hfast
      have hlen1 : ¬ (ds.length < 1) := by
        cases ds with
        | nil => exact absurd rfl hne
        | cons _ _ => simp
      have hti : toInt64 (-((decValue ds 0 : Nat) : Int)) = -((decValue ds 0 : Nat) : Int) :=
        toInt64_of_range _ (by omega) (by omega)
      unfold Atoi
      have hcond : ((intSize == 32 && (decide (0 < (c0 :: rest).length)
          && decide ((c0 :: rest).length < 10))) ||
          (intSize == 64 && (decide (0 < (c0 :: rest).length)
          && decide ((c0 :: rest).length < 19)))) = true := by
        simp [intSize, hl]
      simp only [hcond, if_true, hds2, hlen1, and_false, if_false, hfast, hti]
      by_cases h45 : c0 = 45
      · have hfit : -9223372036854775808 ≤ -((decValue ds 0 : Nat) : Int)
            ∧ -((decValue ds 0 : Nat) : Int) ≤ 9223372036854775807 := by omega
        simp [h45, hfit]
      · have hfit : -9223372036854775808 ≤ ((decValue ds 0 : Nat) : Int)
            ∧ ((decValue ds 0 : Nat) : Int) ≤ 9223372036854775807 := by omega
        simp [h45, hfit]
    · unfold Atoi
      have hcond : ¬ (((intSize == 32 && (decide (0 < (c0 :: rest).length)
          && decide ((c0 :: rest).length < 10))) ||
          (intSize == 64 && (decide (0 < (c0 :: rest).length)
          && decide ((c0 :: rest).length < 19)))) = true) := by
        simp [intSize, hl]
      simp only [hcond, if_false, ParseInt_literal c0 rest ds hds1 hne hd]
      by_cases h45 : c0 = 45
      · simp only [h45, if_true, decide_True]
        by_cases hv : decValue ds 0 > 9223372036854775808
        · have hfit : ¬ (-9223372036854775808 ≤ -((decValue ds 0 : Nat) : Int)
              ∧ -((decValue ds 0 : Nat) : Int) ≤ 9223372036854775807) := by omega
          simp only [hv, if_true, hfit, decide_False, Bool.false_eq_true, if_false]
          decide
        · have hfit : -9223372036854775808 ≤ -((decValue ds 0 : Nat) : Int)
              ∧ -((decValue ds 0 : Nat) : Int) ≤ 9223372036854775807 := by omega
          have hti : toInt64 (-((decValue ds 0 : Nat) : Int)) = -((decValue ds 0 : Nat) : Int) :=
            toInt64_of_range _ (by omega) (by omega)
          simp only [hv, if_false, hfit, and_self, decide_True, if_true, hti,
            Bool.false_eq_true]
      · simp only [h45, if_false, decide_False, Bool.false_eq_true]
        by_cases hv : decValue ds 0 ≥ 9223372036854775808
        · have hfit : ¬ (-9223372036854775808 ≤ ((decValue ds 0 : Nat) : Int)
              ∧ ((decValue ds 0 : Nat) : Int) ≤ 9223372036854775807) := by omega
          simp only [hv, if_true, hfit, decide_False, Bool.false_eq_true, if_false]
          decide
        · have hfit : -9223372036854775808 ≤ ((decValue ds 0 : Nat) : Int)
              ∧ ((decValue ds 0 : Nat) : Int) ≤ 9223372036854775807 := by omega
          have hti : toInt64 ((decValue ds 0 : Nat) : Int) = ((decValue ds 0 : Nat) : Int) :=
            toInt64_of_range _ (by omega) (by omega)
          simp only [hv, if_false, hfit, and_self, decide_True, if_true, hti,
            Bool.false_eq_true]

theorem parseUintLoop_nondigit (b : Nat) (bs : List Nat) (n : Nat)
    (hb : ¬ (48 ≤ b ∧ b ≤ 57)) : parseUintLoop (b :: bs) n = (0, some .ErrSyntax) := by
  unfold parseUintLoop
  simp only [hb, if_false]
  split
  · rfl
  · rename_i d hd
    split at hd
    · have hd1 := Option.some.inj hd
      have : d ≥ 10 := by omega
      simp [this]
    · cases hd

/-- Every return of the digit loop of `ParseUint`, from an accumulator that is a `uint64`. -/
theorem parseUintLoop_exact (bs : List Nat) (n : Nat) (hn : n < 18446744073709551616) :
    parseUintLoop bs n
      = if 18446744073709551616
            ≤ decValue (bs.takeWhile (fun b => decide (48 ≤ b ∧ b ≤ 57))) n then
          (18446744073709551615, some .ErrRange)
        else if bs.all (fun b => decide (48 ≤ b ∧ b ≤ 57)) then (decValue bs n, none)
        else (0, some .ErrSyntax) := by
  induction bs generalizing n with
  | nil =>
    have : ¬ (18446744073709551616 ≤ n) := by omega
    simp [parseUintLoop, decValue, this]
  | cons b bs ih =>
    by_cases hb : 48 ≤ b ∧ b ≤ 57
    · have htw : (b :: bs).takeWhile (fun b => decide (48 ≤ b ∧ b ≤ 57))
          = b :: bs.takeWhile (fun b => decide (48 ≤ b ∧ b ≤ 57)) := by
        simp [List.takeWhile, hb]
      have hall : (b :: bs).all (fun b => decide (48 ≤ b ∧ b ≤ 57))
          = bs.all (fun b => decide (48 ≤ b ∧ b ≤ 57)) := by
        simp [hb]
      rw [htw, hall, decValue_cons, decValue_cons]
      have hle := le_decValue (bs.takeWhile (fun b => decide (48 ≤ b ∧ b ≤ 57)))
        (n * 10 + (b - 48))
      have h64 : (2 : Nat) ^ 64 = 18446744073709551616 := by norm_num
      have e3 : toUint64 (toUint64 (2 ^ intSize) + 2 ^ 64 - 1) = 18446744073709551615 := by
        unfold toUint64 intSize; norm_num
      have e4 : maxUint64 / 10 + 1 = 1844674407370955162 := by
        unfold maxUint64; norm_num
      have c1 : ¬ (b - 48 ≥ 10) := by omega
      unfold parseUintLoop
      simp only [hb.1, hb.2, and_self, if_true, e3, e4, c1, if_false]
      by_cases hc : n ≥ 1844674407370955162
      · have hov : 18446744073709551616
            ≤ decValue (bs.takeWhile (fun b => decide (48 ≤ b ∧ b ≤ 57)))
              (n * 10 + (b - 48)) := by
          omega
        rw [if_pos hc, if_pos hov]
      · rw [if_neg hc]
        have e1 : toUint64 (n * 10) = n * 10 := by
          unfold toUint64; rw [h64]; omega
        rw [e1]
        by_cases ho : n * 10 + (b - 48) < 18446744073709551616
        · have e2 : toUint64 (n * 10 + (b - 48)) = n * 10 + (b - 48) := by
            unfold toUint64; rw [h64]; omega
          rw [e2]
          have c3 : ¬ (n * 10 + (b - 48) < n * 10
              ∨ n * 10 + (b - 48) > 18446744073709551615) := by
            omega
          rw [if_neg c3]
          exact ih (n * 10 + (b - 48)) ho
        · have c3 : toUint64 (n * 10 + (b - 48)) < n * 10
              ∨ toUint64 (n * 10 + (b - 48)) > 18446744073709551615 := by
            left
            unfold toUint64; rw [h64]; omega
          have hov : 18446744073709551616
              ≤ decValue (bs.takeWhile (fun b => decide (48 ≤ b ∧ b ≤ 57)))
                (n * 10 + (b - 48)) := by
            omega
          rw [if_pos c3, if_pos hov]
    · have htw : (b :: bs).takeWhile (fun b => decide (48 ≤ b ∧ b ≤ 57)) = [] := by
        simp [List.takeWhile, hb]
      have hall : (b :: bs).all (fun b => decide (48 ≤ b ∧ b ≤ 57)) = false := by
        simp [hb]
      have : ¬ (18446744073709551616 ≤ n) := by omega
      rw [parseUintLoop_nondigit b bs n hb, htw, hall, decValue_nil]
      simp [this]


theorem leadingDigits_digits (s : List Nat) : ∀ b ∈ leadingDigits s, 48 ≤ b ∧ b ≤ 57 := by
  intro b hb
  unfold leadingDigits at hb
  have := List.mem_takeWhile_imp hb
  simpa using this

theorem leadingDigits_length (s : List Nat) : (leadingDigits s).length ≤ s.length := by
  unfold leadingDigits
  have h1 : ((digitsOf s).takeWhile (fun b => decide (48 ≤ b ∧ b ≤ 57))).length
      ≤ (digitsOf s).length := (List.takeWhile_sublist _).length_le
  have h2 : (digitsOf s).length ≤ s.length := by
    unfold digitsOf
    cases s with
    | nil => simp
    | cons c0 rest =>
      simp only
      split <;> simp
  omega

/-- The call `ParseInt(s, 10, 0)` on a text that is not a decimal integer literal: a range
error with the bound of the sign when the leading digits already exceed `uint64`, a syntax
error otherwise. -/
theorem ParseInt_nonliteral (s : List Nat) (hnl : isDecimalInteger s = false) :
    ParseInt s
      = if 18446744073709551616 ≤ decValue (leadingDigits s) 0 then
          (if isNegative s then -9223372036854775808 else 9223372036854775807,
            some .ErrRange)
        else (0, some .ErrSyntax) := by
  cases s with
  | nil => decide
  | cons c0 rest =>
    have hcut : (2 : Nat) ^ (intSize - 1) = 9223372036854775808 := by decide
    unfold isDecimalInteger at hnl
    simp only at hnl
    unfold leadingDigits digitsOf isNegative
    simp only
    generalize hds : (if c0 = 43 ∨ c0 = 45 then rest else c0 :: rest) = ds at hnl
    have hds1 : (if c0 = 43 then rest else if c0 = 45 then rest else c0 :: rest) = ds := by
      rw [← hds]
      by_cases a : c0 = 43 <;> by_cases b : c0 = 45 <;> simp [a, b]
    unfold ParseInt
    simp only [hds1, hcut]
    unfold ParseUint
    by_cases hemp : ds = []
    · subst hemp
      simp [decValue]
    · have hall : ds.all (fun b => decide (48 ≤ b ∧ b ≤ 57)) = false := by
        cases hd : ds.all (fun b => decide (48 ≤ b ∧ b ≤ 57)) with
        | false => rfl
        | true =>
          rw [hd] at hnl
          cases ds with
          | nil => exact absurd rfl hemp
          | cons _ _ => simp at hnl
      rw [if_neg hemp, parseUintLoop_exact ds 0 (by norm_num), hall]
      by_cases hov : 18446744073709551616
          ≤ decValue (ds.takeWhile (fun b => decide (48 ≤ b ∧ b ≤ 57))) 0
      · simp only [hov, if_true]
        have hns : ¬ (some NumErr.ErrRange = some NumErr.ErrSyntax) := by decide
        simp only [hns, if_false]
        by_cases hneg : c0 = 45
        · simp [hneg]
          decide
        · simp [hneg]
          decide
      · simp only [hov, if_false]
        simp

theorem Atoi_long (s : List Nat) (hlen : ¬ s.length < 19) :
    Atoi s = (toInt64 (ParseInt s).1, (ParseInt s).2) := by
  unfold Atoi
  have hcond : ¬ (((intSize == 32 && (decide (0 < s.length) && decide (s.length < 10))) ||
      (intSize == 64 && (decide (0 < s.length) && decide (s.length < 19)))) = true) := by
    simp [intSize, hlen]
  simp only [hcond, if_false, Bool.false_eq_true]

/-- The function `Atoi` on a text that is not a decimal integer literal: a range error with
the `int` bound of the sign when the leading digits already exceed `uint64`, and
`(0, ErrSyntax)` otherwise. -/
theorem Atoi_nonliteral (s : List Nat) (hbyte : ∀ b ∈ s, b < 256)
    (hnl : isDecimalInteger s = false) :
    Atoi s
      = if 18446744073709551616 ≤ decValue (leadingDigits s) 0 then
          (if isNegative s then -9223372036854775808 else 9223372036854775807,
            some .ErrRange)
        else (0, some .ErrSyntax) := by
  by_cases hlen : s.length < 19
  · have hshort := Atoi_short s hlen
    have hv := decValue_short (leadingDigits s) (leadingDigits_digits s)
      (by have := leadingDigits_length s; omega)
    have hov : ¬ (18446744073709551616 ≤ decValue (leadingDigits s) 0) := by omega
    rw [if_neg hov]
    rcases Atoi_cases s hbyte with ⟨_, h⟩ | h | h | h
    · rw [hnl] at h; cases h
    · exact h
    · rw [h] at hshort; exact absurd rfl hshort
    · rw [h] at hshort; exact absurd rfl hshort
  · rw [Atoi_long s hlen, ParseInt_nonliteral s hnl]
    by_cases hov : 18446744073709551616 ≤ decValue (leadingDigits s) 0
    · simp only [hov, if_true]
      cases isNegative s
      · decide
      · decide
    · simp only [hov, if_false]
      decide

end strconv

/-! ## The accessors on a fetched document -/

theorem GetTemplateDiskSize_fetched (env : Env) (vat : VAppTemplate) (doc : Node)
    (h : FetchesDocument env vat doc) :
    (GetTemplateDiskSize env vat).outcome
      = .returned (itemLoop "Hard disk" (xmlquery.Find doc "ovf:Item")) := by
  obtain ⟨u, resp, h1, h2, _, h4⟩ := h
  unfold getRequest at h2
  simp only [GetTemplateDiskSize, h1, h2, h4]

theorem GetCPUSize_fetched (env : Env) (vat : VAppTemplate) (doc : Node)
    (h : FetchesDocument env vat doc) :
    (GetCPUSize env vat).outcome
      = .returned (itemLoop "Number of Virtual CPUs" (xmlquery.Find doc "ovf:Item")) := by
  obtain ⟨u, resp, h1, h2, _, h4⟩ := h
  unfold getRequest at h2
  simp only [GetCPUSize, h1, h2, h4]

theorem GetMemorySize_fetched (env : Env) (vat : VAppTemplate) (doc : Node)
    (h : FetchesDocument env vat doc) :
    (GetMemorySize env vat).outcome
      = .returned (itemLoop "Memory Size" (xmlquery.Find doc "ovf:Item")) := by
  obtain ⟨u, resp, h1, h2, _, h4⟩ := h
  unfold getRequest at h2
  simp only [GetMemorySize, h1, h2, h4]

theorem sampleFetch_fetches (doc : Node) :
    FetchesDocument (sampleFetch doc) sampleVat doc :=
  ⟨{ raw := "https://vcd/api/vAppTemplate/t1", Path := "https://vcd/api/vAppTemplate/t1" },
    { body := xmlText doc, readErr := none },
    (rfl : sampleUrlParse "https://vcd/api/vAppTemplate/t1" = _), rfl, rfl, rfl⟩

theorem SelectElement_mem_descriptionsOf (item d : Node)
    (h : xmlquery.SelectElement item "rasd:Description" = some d) : d ∈ descriptionsOf item := by
  unfold xmlquery.SelectElement at h
  unfold descriptionsOf
  exact List.mem_filter.2 ⟨List.mem_of_find?_eq_some h, List.find?_some h⟩

theorem itemLoop_no_match (substr : String) (items : List Node)
    (h : ∀ item ∈ items, descriptionMatches substr item = false) :
    itemLoop substr items = (0, none) := by
  induction items with
  | nil => rfl
  | cons n rest ih =>
    have hn := h n (List.mem_cons_self _ _)
    have ih1 := ih (fun x hx => h x (List.mem_cons_of_mem _ hx))
    unfold itemLoop
    unfold descriptionMatches at hn
    cases hd : xmlquery.SelectElement n "rasd:Description" with
    | none => simp only [ih1]
    | some desc =>
      rw [hd] at hn
      have hn1 : strings.Contains (xmlquery.InnerText desc) substr = false := hn
      simp [hn1, ih1]

theorem descriptionMatches_of_noItemMatches (doc : Node) (substr : String)
    (h : NoItemMatches doc substr) :
    ∀ item ∈ xmlquery.Find doc "ovf:Item", descriptionMatches substr item = false := by
  intro item hi
  unfold descriptionMatches
  cases hd : xmlquery.SelectElement item "rasd:Description" with
  | none => rfl
  | some desc => exact h item hi desc (SelectElement_mem_descriptionsOf item desc hd)

/-- Claim C1.  When the descriptor is successfully fetched and parsed and no `ovf:Item` has a
`rasd:Description` whose text contains the accessor's substring, each of
`GetTemplateDiskSize`, `GetCPUSize` and `GetMemorySize` returns `(0, nil)`. -/
theorem C1_no_matching_item_returns_zero (env : Env) (vat : VAppTemplate) (doc : Node)
    (hfetch : FetchesDocument env vat doc) :
    (NoItemMatches doc "Hard disk" →
        (GetTemplateDiskSize env vat).outcome = .returned (0, none))
      ∧ (NoItemMatches doc "Number of Virtual CPUs" →
        (GetCPUSize env vat).outcome = .returned (0, none))
      ∧ (NoItemMatches doc "Memory Size" →
        (GetMemorySize env vat).outcome = .returned (0, none)) := by
  refine ⟨fun h => ?_, fun h => ?_, fun h => ?_⟩
  · rw [GetTemplateDiskSize_fetched env vat doc hfetch,
      itemLoop_no_match _ _ (descriptionMatches_of_noItemMatches doc _ h)]
  · rw [GetCPUSize_fetched env vat doc hfetch,
      itemLoop_no_match _ _ (descriptionMatches_of_noItemMatches doc _ h)]
  · rw [GetMemorySize_fetched env vat doc hfetch,
      itemLoop_no_match _ _ (descriptionMatches_of_noItemMatches doc _ h)]

/-- Witness for C1: a descriptor whose only item is a network adapter. -/
theorem C1_witness :
    FetchesDocument (sampleFetch (sampleDoc [sampleItem "Network adapter 0" (some "1")]))
        sampleVat (sampleDoc [sampleItem "Network adapter 0" (some "1")])
      ∧ NoItemMatches (sampleDoc [sampleItem "Network adapter 0" (some "1")]) "Hard disk"
      ∧ (GetTemplateDiskSize
          (sampleFetch (sampleDoc [sampleItem "Network adapter 0" (some "1")]))
          sampleVat).outcome = .returned (0, none) :=
  have hno : NoItemMatches (sampleDoc [sampleItem "Network adapter 0" (some "1")]) "Hard disk" := by
    unfold NoItemMatches
    decide
  ⟨sampleFetch_fetches _, hno,
    (C1_no_matching_item_returns_zero _ _ _ (sampleFetch_fetches _)).1 hno⟩

/-! ## The item loop: first match with a quantity -/

theorem itemLoop_cons_skip (substr : String) (n : Node) (rest : List Node)
    (h : matchesWithQuantity substr n = false) :
    itemLoop substr (n :: rest) = itemLoop substr rest := by
  unfold matchesWithQuantity descriptionMatches quantityText at h
  rw [itemLoop]
  cases hd : xmlquery.SelectElement n "rasd:Description" with
  | none => rfl
  | some desc =>
    rw [hd] at h
    cases hc : strings.Contains (xmlquery.InnerText desc) substr with
    | false => simp [hc]
    | true =>
      cases hq : xmlquery.SelectElement n "rasd:VirtualQuantity" with
      | none => simp [hc]
      | some q => simp [hc, hq] at h

theorem itemLoop_cons_hit (substr : String) (n : Node) (rest : List Node) (text : String)
    (hm : descriptionMatches substr n = true) (hq : quantityText n = some text) :
    itemLoop substr (n :: rest) = strconv.AtoiString text := by
  unfold descriptionMatches at hm
  unfold quantityText at hq
  rw [itemLoop]
  cases hd : xmlquery.SelectElement n "rasd:Description" with
  | none => rw [hd] at hm; cases hm
  | some desc =>
    rw [hd] at hm
    have hm1 : strings.Contains (xmlquery.InnerText desc) substr = true := hm
    cases hs : xmlquery.SelectElement n "rasd:VirtualQuantity" with
    | none => rw [hs] at hq; cases hq
    | some q =>
      rw [hs] at hq
      have hq1 : xmlquery.InnerText q = text := Option.some.inj hq
      simp [hm1, hq1]

theorem itemLoop_append_skip (substr : String) (pre rest : List Node)
    (h : ∀ p ∈ pre, matchesWithQuantity substr p = false) :
    itemLoop substr (pre ++ rest) = itemLoop substr rest := by
  induction pre with
  | nil => rfl
  | cons p pre ih =>
    rw [List.cons_append, itemLoop_cons_skip substr p _ (h p (List.mem_cons_self _ _))]
    exact ih (fun x hx => h x (List.mem_cons_of_mem _ hx))

theorem itemLoop_eq_firstQuantity (substr : String) (items : List Node) :
    itemLoop substr items = firstQuantity substr items := by
  induction items with
  | nil => rfl
  | cons n rest ih =>
    cases hm : matchesWithQuantity substr n with
    | false =>
      rw [itemLoop_cons_skip substr n rest hm, ih]
      unfold firstQuantity
      rw [List.find?_cons_of_neg]
      simp [hm]
    | true =>
      have hm' := hm
      unfold matchesWithQuantity at hm'
      rw [Bool.and_eq_true] at hm'
      obtain ⟨text, ht⟩ := Option.isSome_iff_exists.1 hm'.2
      rw [itemLoop_cons_hit substr n rest text hm'.1 ht]
      unfold firstQuantity
      rw [List.find?_cons_of_pos _ hm]
      simp [ht]

/-- Claim C2, as amended.  When the first `ovf:Item` in document order whose description
contains the accessor's substring has a `rasd:VirtualQuantity` child, each accessor returns
what `strconv.Atoi` makes of that child's text, whatever items follow it. -/
theorem C2_first_match_with_quantity_wins (env : Env) (vat : VAppTemplate) (doc : Node)
    (pre rest : List Node) (first : Node) (text : String)
    (hfetch : FetchesDocument env vat doc)
    (hitems : xmlquery.Find doc "ovf:Item" = pre ++ first :: rest)
    (hquantity : quantityText first = some text) :
    ((∀ p ∈ pre, descriptionMatches "Hard disk" p = false) →
        descriptionMatches "Hard disk" first = true →
        (GetTemplateDiskSize env vat).outcome = .returned (strconv.AtoiString text))
      ∧ ((∀ p ∈ pre, descriptionMatches "Number of Virtual CPUs" p = false) →
        descriptionMatches "Number of Virtual CPUs" first = true →
        (GetCPUSize env vat).outcome = .returned (strconv.AtoiString text))
      ∧ ((∀ p ∈ pre, descriptionMatches "Memory Size" p = false) →
        descriptionMatches "Memory Size" first = true →
        (GetMemorySize env vat).outcome = .returned (strconv.AtoiString text)) := by
  have key : ∀ substr : String, (∀ p ∈ pre, descriptionMatches substr p = false) →
      descriptionMatches substr first = true →
      itemLoop substr (pre ++ first :: rest) = strconv.AtoiString text := by
    intro substr hpre hfirst
    rw [itemLoop_append_skip substr pre _ (fun p hp => by
      unfold matchesWithQuantity; rw [hpre p hp]; rfl)]
    exact itemLoop_cons_hit substr first rest text hfirst hquantity
  refine ⟨fun h1 h2 => ?_, fun h1 h2 => ?_, fun h1 h2 => ?_⟩
  · rw [GetTemplateDiskSize_fetched env vat doc hfetch, hitems, key _ h1 h2]
  · rw [GetCPUSize_fetched env vat doc hfetch, hitems, key _ h1 h2]
  · rw [GetMemorySize_fetched env vat doc hfetch, hitems, key _ h1 h2]

/-- Witness for C2: two disks, the first of 40960 and the second of 1024. -/
theorem C2_witness :
    FetchesDocument (sampleFetch twoDisksDoc) sampleVat twoDisksDoc
      ∧ xmlquery.Find twoDisksDoc "ovf:Item"
        = [sampleItem "SCSI Controller" (some "0")] ++ sampleItem "Hard disk 1" (some "40960")
            :: [sampleItem "Hard disk 2" (some "1024")]
      ∧ descriptionMatches "Hard disk" (sampleItem "Hard disk 2" (some "1024")) = true
      ∧ (GetTemplateDiskSize (sampleFetch twoDisksDoc) sampleVat).outcome
        = .returned (40960, none) :=
  ⟨sampleFetch_fetches _, rfl, by decide,
    ((C2_first_match_with_quantity_wins (sampleFetch twoDisksDoc) sampleVat
      twoDisksDoc [sampleItem "SCSI Controller" (some "0")] [sampleItem "Hard disk 2" (some "1024")]
      (sampleItem "Hard disk 1" (some "40960")) "40960" (sampleFetch_fetches _) rfl rfl).1
      (by decide) (by decide)).trans (by decide)⟩

/-- Counterexample to C2 as stated.  In both documents the first item whose description
contains "Hard disk" is the same item, which has no quantity; the documents differ only in the
quantity of the later matching item, and `GetTemplateDiskSize` returns that later quantity:
5 for one document and 7 for the other. -/
theorem C2_counterexample :
    xmlquery.Find (firstDiskWithoutQuantityDoc "5") "ovf:Item"
        = [sampleItem "Hard disk 1" none, sampleItem "Hard disk 2" (some "5")]
      ∧ xmlquery.Find (firstDiskWithoutQuantityDoc "7") "ovf:Item"
        = [sampleItem "Hard disk 1" none, sampleItem "Hard disk 2" (some "7")]
      ∧ descriptionMatches "Hard disk" (sampleItem "Hard disk 1" none) = true
      ∧ quantityText (sampleItem "Hard disk 1" none) = none
      ∧ (GetTemplateDiskSize (sampleFetch (firstDiskWithoutQuantityDoc "5"))
          sampleVat).outcome = .returned (5, none)
      ∧ (GetTemplateDiskSize (sampleFetch (firstDiskWithoutQuantityDoc "7"))
          sampleVat).outcome = .returned (7, none) := by
  refine ⟨rfl, rfl, by decide, by decide, by decide, by decide⟩

/-- Claim C9.  An item whose description matches but which has no `rasd:VirtualQuantity`
child does not end the scan: each accessor returns the converted quantity of the first item
in document order that both matches and has a `rasd:VirtualQuantity` child, and `(0, nil)`
when no item has both (`firstQuantity`). -/
theorem C9_scan_continues_past_item_without_quantity (env : Env) (vat : VAppTemplate)
    (doc : Node) (hfetch : FetchesDocument env vat doc) :
    (GetTemplateDiskSize env vat).outcome
        = .returned (firstQuantity "Hard disk" (xmlquery.Find doc "ovf:Item"))
      ∧ (GetCPUSize env vat).outcome
        = .returned (firstQuantity "Number of Virtual CPUs" (xmlquery.Find doc "ovf:Item"))
      ∧ (GetMemorySize env vat).outcome
        = .returned (firstQuantity "Memory Size" (xmlquery.Find doc "ovf:Item")) := by
  refine ⟨?_, ?_, ?_⟩
  · rw [GetTemplateDiskSize_fetched env vat doc hfetch, itemLoop_eq_firstQuantity]
  · rw [GetCPUSize_fetched env vat doc hfetch, itemLoop_eq_firstQuantity]
  · rw [GetMemorySize_fetched env vat doc hfetch, itemLoop_eq_firstQuantity]

/-- Witness for C9: the memory item without a quantity is passed over, the next one with a
quantity decides; a descriptor with no item that has both gives `(0, nil)`. -/
theorem C9_witness :
    FetchesDocument (sampleFetch memoryDoc) sampleVat memoryDoc
      ∧ (GetMemorySize (sampleFetch memoryDoc) sampleVat).outcome
        = .returned (4096, none)
      ∧ (GetTemplateDiskSize (sampleFetch memoryDoc) sampleVat).outcome
        = .returned (0, none) :=
  ⟨sampleFetch_fetches _,
    (C9_scan_continues_past_item_without_quantity (sampleFetch memoryDoc) sampleVat
      memoryDoc (sampleFetch_fetches _)).2.2.trans (by decide),
    (C9_scan_continues_past_item_without_quantity (sampleFetch memoryDoc) sampleVat
      memoryDoc (sampleFetch_fetches _)).1.trans (by decide)⟩

/-! ## Quantity texts that are decimal representations -/

theorem AtoiString_repr (n : Int) (h1 : -9223372036854775808 ≤ n)
    (h2 : n ≤ 9223372036854775807) : strconv.AtoiString (Int.repr n) = (n, none) := by
  unfold strconv.AtoiString
  rw [strconv.Atoi_repr n h1 h2]
  rfl

/-- Claim C3, as amended.  For every integer `n` in the range of Go's `int`
(`-2^63 ≤ n ≤ 2^63 - 1`) and every descriptor with exactly one `ovf:Item`, whose description
contains "Hard disk" and whose `rasd:VirtualQuantity` text is the decimal representation of
`n`, `GetTemplateDiskSize` returns `(n, nil)`. -/
theorem C3_single_disk_item_in_int_range (n : Int) (env : Env) (vat : VAppTemplate)
    (doc item : Node)
    (hlo : -9223372036854775808 ≤ n) (hhi : n ≤ 9223372036854775807)
    (hfetch : FetchesDocument env vat doc)
    (hitems : xmlquery.Find doc "ovf:Item" = [item])
    (hdesc : descriptionMatches "Hard disk" item = true)
    (hquantity : quantityText item = some (Int.repr n)) :
    (GetTemplateDiskSize env vat).outcome = .returned (n, none) := by
  rw [GetTemplateDiskSize_fetched env vat doc hfetch, hitems,
    itemLoop_cons_hit "Hard disk" item [] (Int.repr n) hdesc hquantity, AtoiString_repr n hlo hhi]

/-- Witness for C3: quantity "40960" yields 40960. -/
theorem C3_witness :
    quantityText (sampleItem "Hard disk 1" (some "40960")) = some "40960"
      ∧ Int.repr 40960 = "40960"
      ∧ (GetTemplateDiskSize
          (sampleFetch (sampleDoc [sampleItem "Hard disk 1" (some "40960")]))
          sampleVat).outcome = .returned (40960, none) :=
  ⟨rfl, by decide,
    C3_single_disk_item_in_int_range 40960
      (sampleFetch (sampleDoc [sampleItem "Hard disk 1" (some "40960")])) sampleVat
      (sampleDoc [sampleItem "Hard disk 1" (some "40960")])
      (sampleItem "Hard disk 1" (some "40960")) (by decide) (by decide)
      (sampleFetch_fetches _) rfl (by decide) (by decide)⟩

/-- Counterexample to C3 as stated, at `n = 2^63`: the single item's description contains
"Hard disk" and its quantity text is the decimal representation of `n`, and
`GetTemplateDiskSize` returns `2^63 - 1` together with a range error. -/
theorem C3_counterexample :
    xmlquery.Find (sampleDoc [sampleItem "Hard disk 1" (some "9223372036854775808")]) "ovf:Item"
        = [sampleItem "Hard disk 1" (some "9223372036854775808")]
      ∧ descriptionMatches "Hard disk" (sampleItem "Hard disk 1" (some "9223372036854775808"))
        = true
      ∧ quantityText (sampleItem "Hard disk 1" (some "9223372036854775808"))
        = some (Int.repr 9223372036854775808)
      ∧ (GetTemplateDiskSize
          (sampleFetch (sampleDoc [sampleItem "Hard disk 1" (some "9223372036854775808")]))
          sampleVat).outcome
        = .returned (9223372036854775807,
            some (.numError "Atoi" "9223372036854775808" .ErrRange)) := by
  refine ⟨rfl, by decide, by decide, by decide⟩

/-! ## Quantity texts that do not convert -/

/-- What `strconv.Atoi` returns on a text that is not a valid decimal integer, that is, not a
decimal integer literal or a literal whose value does not fit `int`.  The error is a range
error when the text is a literal (then out of range) or when its leading digits already exceed
`uint64` before the first invalid byte, and the value is then the `int` bound of the sign:
`-2^63` for a text that starts with `-`, `2^63 - 1` otherwise.  In every other case the error
is a syntax error and the value is 0; a text shorter than 19 bytes is always such a case. -/
theorem AtoiString_invalid (text : String)
    (h : strconv.isDecimalInteger (goBytes text) = false
      ∨ strconv.fitsInt (strconv.decimalValue (goBytes text)) = false) :
    strconv.AtoiString text
        = (if strconv.isDecimalInteger (goBytes text) = true
              ∨ 18446744073709551616
                ≤ strconv.decValue (strconv.leadingDigits (goBytes text)) 0 then
            (if strconv.isNegative (goBytes text) then -9223372036854775808
              else 9223372036854775807,
              some (.numError "Atoi" text .ErrRange))
          else (0, some (.numError "Atoi" text .ErrSyntax)))
      ∧ ((goBytes text).length < 19 →
        strconv.AtoiString text = (0, some (.numError "Atoi" text .ErrSyntax))) := by
  have hmain : strconv.Atoi (goBytes text)
      = (if strconv.isDecimalInteger (goBytes text) = true
            ∨ 18446744073709551616
              ≤ strconv.decValue (strconv.leadingDigits (goBytes text)) 0 then
          (if strconv.isNegative (goBytes text) then -9223372036854775808
            else 9223372036854775807, some .ErrRange)
        else (0, some .ErrSyntax)) := by
    by_cases hv : strconv.isDecimalInteger (goBytes text) = true
    · have hfit : strconv.fitsInt (strconv.decimalValue (goBytes text)) = false := by
        rcases h with h | h
        · rw [hv] at h; cases h
        · exact h
      rw [strconv.Atoi_literal (goBytes text) hv, hfit, if_pos (Or.inl hv)]
      cases strconv.isNegative (goBytes text) <;> simp
    · have hv1 : strconv.isDecimalInteger (goBytes text) = false := by
        cases hd : strconv.isDecimalInteger (goBytes text) with
        | false => rfl
        | true => exact absurd hd hv
      rw [strconv.Atoi_nonliteral (goBytes text) (strconv.goBytes_lt text) hv1]
      by_cases hov : 18446744073709551616
          ≤ strconv.decValue (strconv.leadingDigits (goBytes text)) 0
      · rw [if_pos hov, if_pos (Or.inr hov)]
      · rw [if_neg hov, if_neg (fun hc => hc.elim (fun a => hv a) (fun b => hov b))]
  constructor
  · unfold strconv.AtoiString
    rw [hmain]
    split <;> rfl
  · intro hlen
    have hs := strconv.Atoi_short (goBytes text) hlen
    unfold strconv.AtoiString
    rw [hmain] at hs ⊢
    split
    · rename_i hc
      rw [if_pos hc] at hs
      exact absurd rfl hs
    · rfl

/-- Claim C10, as amended.  When the first item in document order that matches and has a
`rasd:VirtualQuantity` child carries quantity text that is not a valid decimal integer (not a
decimal integer literal, or a literal whose value does not fit `int`), each accessor returns
what `strconv.Atoi` returns on that text, whatever items follow: a non-nil integer-conversion
error, with value 0 when it is a syntax error (always so for a text shorter than 19 bytes) and
with the `int` bound of the sign when it is a range error (`-2^63` for a text that starts with
`-`, `2^63 - 1` otherwise).  The error is a range error exactly when the text is a literal or
its leading digits already exceed `uint64`. -/
theorem C10_invalid_quantity_returns_conversion_error (env : Env) (vat : VAppTemplate)
    (doc : Node) (pre rest : List Node) (first : Node) (text : String)
    (hfetch : FetchesDocument env vat doc)
    (hitems : xmlquery.Find doc "ovf:Item" = pre ++ first :: rest)
    (hquantity : quantityText first = some text)
    (hinvalid : strconv.isDecimalInteger (goBytes text) = false
      ∨ strconv.fitsInt (strconv.decimalValue (goBytes text)) = false) :
    ((∀ p ∈ pre, matchesWithQuantity "Hard disk" p = false) →
        descriptionMatches "Hard disk" first = true →
        (GetTemplateDiskSize env vat).outcome = .returned (strconv.AtoiString text))
      ∧ ((∀ p ∈ pre, matchesWithQuantity "Number of Virtual CPUs" p = false) →
        descriptionMatches "Number of Virtual CPUs" first = true →
        (GetCPUSize env vat).outcome = .returned (strconv.AtoiString text))
      ∧ ((∀ p ∈ pre, matchesWithQuantity "Memory Size" p = false) →
        descriptionMatches "Memory Size" first = true →
        (GetMemorySize env vat).outcome = .returned (strconv.AtoiString text))
      ∧ strconv.AtoiString text
        = (if strconv.isDecimalInteger (goBytes text) = true
              ∨ 18446744073709551616
                ≤ strconv.decValue (strconv.leadingDigits (goBytes text)) 0 then
            (if strconv.isNegative (goBytes text) then -9223372036854775808
              else 9223372036854775807,
              some (.numError "Atoi" text .ErrRange))
          else (0, some (.numError "Atoi" text .ErrSyntax)))
      ∧ ((goBytes text).length < 19 →
        strconv.AtoiString text = (0, some (.numError "Atoi" text .ErrSyntax))) := by
  have key : ∀ substr : String, (∀ p ∈ pre, matchesWithQuantity substr p = false) →
      descriptionMatches substr first = true →
      itemLoop substr (pre ++ first :: rest) = strconv.AtoiString text := by
    intro substr hpre hfirst
    rw [itemLoop_append_skip substr pre _ hpre]
    exact itemLoop_cons_hit substr first rest text hfirst hquantity
  refine ⟨fun h1 h2 => ?_, fun h1 h2 => ?_, fun h1 h2 => ?_, (AtoiString_invalid text hinvalid).1,
    (AtoiString_invalid text hinvalid).2⟩
  · rw [GetTemplateDiskSize_fetched env vat doc hfetch, hitems, key _ h1 h2]
  · rw [GetCPUSize_fetched env vat doc hfetch, hitems, key _ h1 h2]
  · rw [GetMemorySize_fetched env vat doc hfetch, hitems, key _ h1 h2]

/-- Witness for C10: the text "two" gives `(0, ErrSyntax)` although a later item has "4";
the text "-9223372036854775809", a literal below the `int` range, gives `-2^63` with a range
error. -/
theorem C10_witness :
    strconv.isDecimalInteger (goBytes "two") = false
      ∧ (GetCPUSize (sampleFetch badCpuDoc) sampleVat).outcome
        = .returned (0, some (.numError "Atoi" "two" .ErrSyntax))
      ∧ strconv.fitsInt (strconv.decimalValue (goBytes "-9223372036854775809")) = false
      ∧ (GetTemplateDiskSize
          (sampleFetch (sampleDoc [sampleItem "Hard disk 1" (some "-9223372036854775809")]))
          sampleVat).outcome
        = .returned (-9223372036854775808,
            some (.numError "Atoi" "-9223372036854775809" .ErrRange)) :=
  ⟨by decide,
    ((C10_invalid_quantity_returns_conversion_error (sampleFetch badCpuDoc) sampleVat
      badCpuDoc [sampleItem "Number of Virtual CPUs" none]
      [sampleItem "Number of Virtual CPUs" (some "4")]
      (sampleItem "Number of Virtual CPUs" (some "two")) "two" (sampleFetch_fetches _) rfl rfl
      (by decide)).2.1 (by decide) (by decide)).trans (by decide),
    by decide,
    ((C10_invalid_quantity_returns_conversion_error
      (sampleFetch (sampleDoc [sampleItem "Hard disk 1" (some "-9223372036854775809")]))
      sampleVat (sampleDoc [sampleItem "Hard disk 1" (some "-9223372036854775809")]) [] []
      (sampleItem "Hard disk 1" (some "-9223372036854775809")) "-9223372036854775809"
      (sampleFetch_fetches _) rfl rfl (by decide)).1 (by simp) (by decide)).trans
        (by decide)⟩

/-- Counterexample to C10 as stated.  The only item matches and has a quantity child.  With
the text "99999999999999999999x", which is not a decimal integer literal, `GetTemplateDiskSize`
returns `2^63 - 1`, not 0, with the range error `strconv.Atoi` raises at the twentieth digit;
with the text "9223372036854775808", a literal whose value does not fit `int`, it returns
`2^63 - 1` with a range error as well. -/
theorem C10_counterexample :
    xmlquery.Find (sampleDoc [sampleItem "Hard disk 1" (some "99999999999999999999x")]) "ovf:Item"
        = [sampleItem "Hard disk 1" (some "99999999999999999999x")]
      ∧ matchesWithQuantity "Hard disk" (sampleItem "Hard disk 1" (some "99999999999999999999x"))
        = true
      ∧ quantityText (sampleItem "Hard disk 1" (some "99999999999999999999x"))
        = some "99999999999999999999x"
      ∧ strconv.isDecimalInteger (goBytes "99999999999999999999x") = false
      ∧ (GetTemplateDiskSize
          (sampleFetch (sampleDoc [sampleItem "Hard disk 1" (some "99999999999999999999x")]))
          sampleVat).outcome
        = .returned (9223372036854775807,
            some (.numError "Atoi" "99999999999999999999x" .ErrRange))
      ∧ strconv.fitsInt (strconv.decimalValue (goBytes "9223372036854775808")) = false
      ∧ (GetTemplateDiskSize
          (sampleFetch (sampleDoc [sampleItem "Hard disk 1" (some "9223372036854775808")]))
          sampleVat).outcome
        = .returned (9223372036854775807,
            some (.numError "Atoi" "9223372036854775808" .ErrRange)) := by
  refine ⟨rfl, by decide, rfl, by decide, by decide, by decide, by decide⟩

/-! ## Instantiation: the sequential waits -/

theorem stateAfter_cons {σ : Type} (wait : σ → types.Task → σ × Option Error) (s : σ)
    (t : types.Task) (tasks : List types.Task) :
    stateAfter wait s (t :: tasks) = stateAfter wait (wait s t).1 tasks := rfl

theorem waitLoop_spec {σ : Type} (wait : σ → types.Task → σ × Option Error)
    (tasks : List types.Task) (s : σ) :
    ((∀ pre t post, tasks = pre ++ t :: post → (wait (stateAfter wait s pre) t).2 = none)
        ∧ (waitLoop wait tasks s).waits = tasks.map (fun t => (t, none))
        ∧ (waitLoop wait tasks s).state = stateAfter wait s tasks
        ∧ (waitLoop wait tasks s).err = none)
      ∨ ∃ pre t post e, tasks = pre ++ t :: post
        ∧ (∀ pre1 t1 post1, pre = pre1 ++ t1 :: post1 →
            (wait (stateAfter wait s pre1) t1).2 = none)
        ∧ (wait (stateAfter wait s pre) t).2 = some e
        ∧ (waitLoop wait tasks s).waits = pre.map (fun t => (t, none)) ++ [(t, some e)]
        ∧ (waitLoop wait tasks s).state = (wait (stateAfter wait s pre) t).1
        ∧ (waitLoop wait tasks s).err = some (.errorf "Error performing task: %#v" e) := by
  induction tasks generalizing s with
  | nil =>
    left
    refine ⟨?_, rfl, rfl, rfl⟩
    intro pre t post h
    cases pre <;> cases h
  | cons t rest ih =>
    rw [waitLoop]
    rcases hw : wait s t with ⟨s1, _ | e⟩
    · have hs1 : (wait s t).1 = s1 := by rw [hw]
      have he1 : (wait s t).2 = none := by rw [hw]
      have hprefix : ∀ (pre : List types.Task) (t1 : types.Task) (post : List types.Task),
          t :: rest = pre ++ t1 :: post →
          (∀ pre2 t2 post2, rest = pre2 ++ t2 :: post2 →
            (wait (stateAfter wait s1 pre2) t2).2 = none) →
          (wait (stateAfter wait s pre) t1).2 = none := by
        intro pre t1 post h hrest
        cases pre with
        | nil =>
          simp only [List.nil_append, List.cons.injEq] at h
          rw [← h.1]
          exact he1
        | cons p pre2 =>
          simp only [List.cons_append, List.cons.injEq] at h
          rw [← h.1, stateAfter_cons, hs1]
          exact hrest pre2 t1 post h.2
      rcases ih s1 with ⟨h1, h2, h3, h4⟩ | ⟨pre, t1, post, e, h1, h2, h3, h4, h5, h6⟩
      · left
        refine ⟨fun pre t1 post h => hprefix pre t1 post h h1, by simp [h2], ?_, h4⟩
        simp only [h3, stateAfter_cons, hs1]
      · right
        refine ⟨t :: pre, t1, post, e, by simp [h1], ?_, ?_, by simp [h4], ?_, h6⟩
        · intro pre1 t2 post1 h
          cases pre1 with
          | nil =>
            simp only [List.nil_append, List.cons.injEq] at h
            rw [← h.1]
            exact he1
          | cons p pre2 =>
            simp only [List.cons_append, List.cons.injEq] at h
            rw [← h.1, stateAfter_cons, hs1]
            exact h2 pre2 t2 post1 h.2
        · rw [stateAfter_cons, hs1]
          exact h3
        · rw [stateAfter_cons, hs1]
          exact h5
    · right
      refine ⟨[], t, rest, e, rfl, ?_, by simp [stateAfter, hw], rfl, by simp [stateAfter, hw],
        rfl⟩
      intro pre1 t1 post1 h
      cases pre1 <;> cases h

theorem InstantiateVAppTemplate_responds {σ : Type} (env : Env)
    (wait : σ → types.Task → σ × Option Error) (vdc : Vdc)
    (template : types.InstantiateVAppTemplateParams) (s : σ) (tasks : List types.Task)
    (h : InstantiateResponds env vdc template tasks) :
    (InstantiateVAppTemplate env wait vdc template s).waits = (waitLoop wait tasks s).waits
      ∧ (InstantiateVAppTemplate env wait vdc template s).state = (waitLoop wait tasks s).state
      ∧ (InstantiateVAppTemplate env wait vdc template s).outcome
        = .returned (waitLoop wait tasks s).err := by
  obtain ⟨output, u, resp, vt, h1, h2, h3, h4, h5⟩ := h
  unfold instantiateRequest at h3
  simp only [InstantiateVAppTemplate, h1, h2, h3, h4, h5, and_self]

/-- Claim C4.  In `InstantiateVAppTemplate`, once the request and the response decode
succeed, for every task list in the response and every behaviour `wait` of
`WaitTaskCompletion` (a function of the collaborator state and the task, giving the next state
and the error): waits are made in list order, each in the state the previous one left.
Either every wait returns nil; then every task of the list was waited on, the collaborator is
left in the state after all of them, and the call returns nil.  Or some task `t` is the first
whose wait returns an error `e`; then the waits made are exactly those on the tasks before `t`
(each without error) followed by the one on `t`, the collaborator is left in the state right
after the wait on `t` (no later task is waited on), and the call returns the error built from
`e` by `fmt.Errorf("Error performing task: %#v", e)`. -/
theorem C4_waits_stop_at_first_failure {σ : Type} (env : Env)
    (wait : σ → types.Task → σ × Option Error) (vdc : Vdc)
    (template : types.InstantiateVAppTemplateParams) (s : σ) (tasks : List types.Task)
    (hresp : InstantiateResponds env vdc template tasks) :
    ((∀ pre t post, tasks = pre ++ t :: post → (wait (stateAfter wait s pre) t).2 = none)
        ∧ (InstantiateVAppTemplate env wait vdc template s).waits
          = tasks.map (fun t => (t, none))
        ∧ (InstantiateVAppTemplate env wait vdc template s).state = stateAfter wait s tasks
        ∧ (InstantiateVAppTemplate env wait vdc template s).outcome = .returned none)
      ∨ ∃ pre t post e, tasks = pre ++ t :: post
        ∧ (∀ pre1 t1 post1, pre = pre1 ++ t1 :: post1 →
            (wait (stateAfter wait s pre1) t1).2 = none)
        ∧ (wait (stateAfter wait s pre) t).2 = some e
        ∧ (InstantiateVAppTemplate env wait vdc template s).waits
          = pre.map (fun t => (t, none)) ++ [(t, some e)]
        ∧ (InstantiateVAppTemplate env wait vdc template s).state
          = (wait (stateAfter wait s pre) t).1
        ∧ (InstantiateVAppTemplate env wait vdc template s).outcome
          = .returned (some (.errorf "Error performing task: %#v" e)) := by
  obtain ⟨hw, hs, ho⟩ := InstantiateVAppTemplate_responds env wait vdc template s tasks hresp
  rw [hw, hs, ho]
  rcases waitLoop_spec wait tasks s with
    ⟨h1, h2, h3, h4⟩ | ⟨pre, t, post, e, h1, h2, h3, h4, h5, h6⟩
  · left
    exact ⟨h1, h2, h3, by rw [h4]⟩
  · right
    exact ⟨pre, t, post, e, h1, h2, h3, h4, h5, by rw [h6]⟩

theorem sampleInstantiateEnv_responds :
    InstantiateResponds sampleInstantiateEnv sampleVdc sampleParams sampleTasks :=
  ⟨"vapp1", { raw := "https://vcd/api/vdc/1", Path := "https://vcd/api/vdc/1" },
    { body := sampleInstantiateBody, readErr := none },
    { HREF := "https://vcd/api/vAppTemplate/t1", Tasks := some sampleTasks },
    rfl, (rfl : sampleUrlParse "https://vcd/api/vdc/1" = _), rfl, rfl, rfl⟩

/-- Witness for C4, on three tasks.  When the wait on the second fails, the first two are
waited on, the third is not (two calls made), and the error is built from the second task's
error; when the wait on the third fails, all three are waited on and its error is returned;
when no wait fails, all three are waited on (three calls made) and nil is returned. -/
theorem C4_witness :
    InstantiateResponds sampleInstantiateEnv sampleVdc sampleParams sampleTasks
      ∧ (InstantiateVAppTemplate sampleInstantiateEnv (sampleWait "https://vcd/api/task/2")
          sampleVdc sampleParams 0).waits
        = [(⟨"https://vcd/api/task/1", "running"⟩, none),
           (⟨"https://vcd/api/task/2", "running"⟩,
             some (.external "task did not complete successfully"))]
      ∧ (InstantiateVAppTemplate sampleInstantiateEnv (sampleWait "https://vcd/api/task/2")
          sampleVdc sampleParams 0).state = 2
      ∧ (InstantiateVAppTemplate sampleInstantiateEnv (sampleWait "https://vcd/api/task/2")
          sampleVdc sampleParams 0).outcome
        = .returned (some (.errorf "Error performing task: %#v"
            (.external "task did not complete successfully")))
      ∧ (InstantiateVAppTemplate sampleInstantiateEnv (sampleWait "https://vcd/api/task/3")
          sampleVdc sampleParams 0).state = 3
      ∧ (InstantiateVAppTemplate sampleInstantiateEnv (sampleWait "https://vcd/api/task/3")
          sampleVdc sampleParams 0).outcome
        = .returned (some (.errorf "Error performing task: %#v"
            (.external "task did not complete successfully")))
      ∧ (InstantiateVAppTemplate sampleInstantiateEnv (sampleWait "")
          sampleVdc sampleParams 0).state = 3
      ∧ (InstantiateVAppTemplate sampleInstantiateEnv (sampleWait "")
          sampleVdc sampleParams 0).outcome = .returned none
      ∧ (((∀ pre t post, sampleTasks = pre ++ t :: post →
              (sampleWait "https://vcd/api/task/2"
                (stateAfter (sampleWait "https://vcd/api/task/2") 0 pre) t).2 = none)
            ∧ (InstantiateVAppTemplate sampleInstantiateEnv (sampleWait "https://vcd/api/task/2")
                sampleVdc sampleParams 0).waits = sampleTasks.map (fun t => (t, none))
            ∧ (InstantiateVAppTemplate sampleInstantiateEnv (sampleWait "https://vcd/api/task/2")
                sampleVdc sampleParams 0).state
              = stateAfter (sampleWait "https://vcd/api/task/2") 0 sampleTasks
            ∧ (InstantiateVAppTemplate sampleInstantiateEnv (sampleWait "https://vcd/api/task/2")
                sampleVdc sampleParams 0).outcome = .returned none)
          ∨ ∃ pre t post e, sampleTasks = pre ++ t :: post
            ∧ (∀ pre1 t1 post1, pre = pre1 ++ t1 :: post1 →
                (sampleWait "https://vcd/api/task/2"
                  (stateAfter (sampleWait "https://vcd/api/task/2") 0 pre1) t1).2 = none)
            ∧ (sampleWait "https://vcd/api/task/2"
                (stateAfter (sampleWait "https://vcd/api/task/2") 0 pre) t).2 = some e
            ∧ (InstantiateVAppTemplate sampleInstantiateEnv (sampleWait "https://vcd/api/task/2")
                sampleVdc sampleParams 0).waits = pre.map (fun t => (t, none)) ++ [(t, some e)]
            ∧ (InstantiateVAppTemplate sampleInstantiateEnv (sampleWait "https://vcd/api/task/2")
                sampleVdc sampleParams 0).state
              = (sampleWait "https://vcd/api/task/2"
                  (stateAfter (sampleWait "https://vcd/api/task/2") 0 pre) t).1
            ∧ (InstantiateVAppTemplate sampleInstantiateEnv (sampleWait "https://vcd/api/task/2")
                sampleVdc sampleParams 0).outcome
              = .returned (some (.errorf "Error performing task: %#v" e))) :=
  ⟨sampleInstantiateEnv_responds, by decide, by decide, by decide, by decide, by decide,
    by decide, by decide,
    C4_waits_stop_at_first_failure sampleInstantiateEnv (sampleWait "https://vcd/api/task/2")
      sampleVdc sampleParams 0 sampleTasks sampleInstantiateEnv_responds⟩

/-! ## Link discovery: the link loop and the final segment -/

theorem linkLoop_cons (n : Node) (rest : List Node) (m : StringMap) :
    linkLoop (n :: rest) m
      = if xmlquery.SelectAttr n "href" ≠ "" then
          linkLoop rest (m.set (lastSegment (xmlquery.SelectAttr n "href"))
            (xmlquery.SelectAttr n "href"))
        else linkLoop rest m := rfl

theorem lastLinkFor_cons (k : String) (n : Node) (rest : List Node) :
    lastLinkFor k (n :: rest)
      = (lastLinkFor k rest).or
          (if linkHasKey k n then some (xmlquery.SelectAttr n "href") else none) := by
  unfold lastLinkFor
  rw [List.reverse_cons, List.find?_append]
  cases List.find? (linkHasKey k) rest.reverse with
  | some x => simp
  | none =>
    cases hk : linkHasKey k n <;> simp [hk]

theorem linkLoop_apply (links : List Node) (m : StringMap) (k : String) :
    linkLoop links m k = (lastLinkFor k links).or (m k) := by
  induction links generalizing m with
  | nil => simp [linkLoop, lastLinkFor]
  | cons n rest ih =>
    rw [linkLoop_cons, lastLinkFor_cons]
    by_cases hne : xmlquery.SelectAttr n "href" ≠ ""
    · rw [if_pos hne, ih]
      cases lastLinkFor k rest with
      | some x => simp
      | none =>
        by_cases hk : k = lastSegment (xmlquery.SelectAttr n "href")
        · have hkey : linkHasKey k n = true := by
            unfold linkHasKey
            simp [hne, hk]
          rw [hkey]
          simp [StringMap.set, hk]
        · have hkey : linkHasKey k n = false := by
            unfold linkHasKey
            simp [hne, Ne.symm hk]
          rw [hkey]
          simp [StringMap.set, hk]
    · have hkey : linkHasKey k n = false := by
        unfold linkHasKey
        simp at hne
        simp [hne]
      rw [if_neg hne, hkey, ih]
      cases lastLinkFor k rest <;> simp

theorem splitChars_ne_nil (sep : Char) (cs : List Char) : strings.splitChars sep cs ≠ [] := by
  cases cs with
  | nil => simp [strings.splitChars]
  | cons c cs =>
    rw [strings.splitChars]
    split
    · simp
    · split <;> simp

theorem splitChars_no_sep (sep : Char) (t : List Char) (h : sep ∉ t) :
    strings.splitChars sep t = [t] := by
  induction t with
  | nil => rfl
  | cons c t ih =>
    have hc : ¬ (c = sep) := fun e => h (by simp [e])
    have ht : sep ∉ t := fun e => h (List.mem_cons_of_mem _ e)
    rw [strings.splitChars, if_neg hc, ih ht]

theorem splitChars_append_sep (sep : Char) (p t : List Char) :
    ∃ front, front ≠ [] ∧ strings.splitChars sep (p ++ sep :: t)
      = front ++ strings.splitChars sep t := by
  induction p with
  | nil =>
    refine ⟨[[]], by simp, ?_⟩
    simp [strings.splitChars]
  | cons c p ih =>
    obtain ⟨front, hne, e⟩ := ih
    obtain ⟨f, fs, rfl⟩ := List.exists_cons_of_ne_nil hne
    rw [List.cons_append, strings.splitChars]
    by_cases hc : c = sep
    · rw [if_pos hc, e]
      exact ⟨[] :: f :: fs, by simp, by simp⟩
    · rw [if_neg hc, e]
      exact ⟨(c :: f) :: fs, by simp, by simp⟩

theorem lastSegment_append (p t : String) (h : '/' ∉ t.data) :
    lastSegment (p ++ "/" ++ t) = t := by
  unfold lastSegment strings.Split
  have hd : (p ++ "/" ++ t).data = p.data ++ '/' :: t.data := by
    simp [String.data_append]
  rw [hd]
  obtain ⟨front, _, e⟩ := splitChars_append_sep '/' p.data t.data
  rw [e, splitChars_no_sep '/' t.data h, List.map_append]
  exact List.getLastD_concat _ _ _

theorem getLinks_fetched (env : Env) (vat : VAppTemplate) (doc : Node)
    (h : FetchesDocument env vat doc) :
    (getLinks env vat).outcome
      = .returned (linkLoop (xmlquery.Find doc "vcloud:Link") StringMap.empty, none) := by
  obtain ⟨u, resp, h1, h2, h3, h4⟩ := h
  unfold getRequest at h2
  simp only [getLinks, h1, h2, h3, h4]

theorem lastLinkFor_isSome (k : String) (links : List Node) :
    (lastLinkFor k links).isSome = true ↔
      ∃ n ∈ links, xmlquery.SelectAttr n "href" ≠ ""
        ∧ lastSegment (xmlquery.SelectAttr n "href") = k := by
  unfold lastLinkFor
  rw [Option.isSome_map', List.find?_isSome]
  constructor
  · rintro ⟨n, hn, hk⟩
    unfold linkHasKey at hk
    simp only [Bool.and_eq_true, decide_eq_true_eq] at hk
    exact ⟨n, List.mem_reverse.1 hn, hk.1, hk.2⟩
  · rintro ⟨n, hn, h1, h2⟩
    refine ⟨n, List.mem_reverse.2 hn, ?_⟩
    unfold linkHasKey
    simp only [Bool.and_eq_true, decide_eq_true_eq]
    exact ⟨h1, h2⟩

theorem append_slash_ne_empty (p t : String) : p ++ "/" ++ t ≠ "" := by
  intro h
  have hd : (p ++ "/" ++ t).data = p.data ++ '/' :: t.data := by
    simp [String.data_append]
  rw [h] at hd
  cases hp : p.data <;> rw [hp] at hd <;> cases hd

/-- Claim C5, as amended.  For every successfully fetched and parsed document, `getLinks`
returns, with a nil error, a map whose keys are exactly the final `/`-separated segments of
the non-empty `href` attributes of the `vcloud:Link` elements, each key mapped to the full
`href` of the last link in document order having that final segment; for two links with hrefs
ending in `/disks` and `/metadata` the map is exactly `{"disks": href1, "metadata": href2}`. -/
theorem C5_getLinks_indexes_nonempty_hrefs (env : Env) (vat : VAppTemplate) (doc : Node)
    (hfetch : FetchesDocument env vat doc) :
    ∃ links : StringMap, (getLinks env vat).outcome = .returned (links, none)
      ∧ (∀ k, (links k).isSome = true ↔
          ∃ n ∈ xmlquery.Find doc "vcloud:Link", xmlquery.SelectAttr n "href" ≠ ""
            ∧ lastSegment (xmlquery.SelectAttr n "href") = k)
      ∧ (∀ k, links k = lastLinkFor k (xmlquery.Find doc "vcloud:Link"))
      ∧ (∀ l1 l2 p1 p2, xmlquery.Find doc "vcloud:Link" = [l1, l2] →
          xmlquery.SelectAttr l1 "href" = p1 ++ "/disks" →
          xmlquery.SelectAttr l2 "href" = p2 ++ "/metadata" →
          ∀ k, links k = if k = "disks" then some (p1 ++ "/disks")
            else if k = "metadata" then some (p2 ++ "/metadata") else none) := by
  refine ⟨linkLoop (xmlquery.Find doc "vcloud:Link") StringMap.empty,
    getLinks_fetched env vat doc hfetch, ?_, ?_, ?_⟩
  · intro k
    rw [linkLoop_apply, ← lastLinkFor_isSome]
    cases lastLinkFor k (xmlquery.Find doc "vcloud:Link") <;> simp [StringMap.empty]
  · intro k
    rw [linkLoop_apply]
    cases lastLinkFor k (xmlquery.Find doc "vcloud:Link") <;> simp [StringMap.empty]
  · intro l1 l2 p1 p2 hl h1 h2 k
    have e1 : p1 ++ "/disks" = p1 ++ "/" ++ "disks" := by
      rw [String.append_assoc]; rfl
    have e2 : p2 ++ "/metadata" = p2 ++ "/" ++ "metadata" := by
      rw [String.append_assoc]; rfl
    have s1 : lastSegment (p1 ++ "/disks") = "disks" := by
      rw [e1]; exact lastSegment_append p1 "disks" (by decide)
    have s2 : lastSegment (p2 ++ "/metadata") = "metadata" := by
      rw [e2]; exact lastSegment_append p2 "metadata" (by decide)
    have n1 : p1 ++ "/disks" ≠ "" := by rw [e1]; exact append_slash_ne_empty p1 "disks"
    have n2 : p2 ++ "/metadata" ≠ "" := by rw [e2]; exact append_slash_ne_empty p2 "metadata"
    have hdm : ("disks" : String) ≠ "metadata" := by decide
    rw [hl]
    simp only [linkLoop, h1, h2, n1, n2, if_true, ne_eq, not_false_eq_true, lastSegment] at *
    simp only [StringMap.set, StringMap.empty]
    have s1' : (strings.Split (p1 ++ "/disks") '/').getLastD "" = "disks" := s1
    have s2' : (strings.Split (p2 ++ "/metadata") '/').getLastD "" = "metadata" := s2
    rw [s1', s2']
    by_cases hk1 : k = "disks"
    · subst hk1
      simp [hdm]
    · by_cases hk2 : k = "metadata"
      · subst hk2
        simp
      · simp [hk1, hk2]

/-- Witness for C5: on the two-link document the map has exactly the keys "disks" and
"metadata", with the full hrefs. -/
theorem C5_witness :
    FetchesDocument (sampleFetch twoLinksDoc) sampleVat twoLinksDoc
      ∧ ∃ links : StringMap,
        (getLinks (sampleFetch twoLinksDoc) sampleVat).outcome
          = .returned (links, none)
        ∧ ∀ k, links k =
            if k = "disks" then some ("https://vcd/api/vAppTemplate/t1" ++ "/disks")
            else if k = "metadata" then some ("https://vcd/api/vAppTemplate/t1" ++ "/metadata")
            else none :=
  ⟨sampleFetch_fetches _,
    (C5_getLinks_indexes_nonempty_hrefs (sampleFetch twoLinksDoc) sampleVat
      twoLinksDoc (sampleFetch_fetches _)).elim
      (fun links h => ⟨links, h.1, h.2.2.2 _ _ "https://vcd/api/vAppTemplate/t1"
        "https://vcd/api/vAppTemplate/t1" rfl (by decide) (by decide)⟩)⟩

/-- Counterexample to C5 as stated.  The document has one `vcloud:Link`, its `href` attribute
is the empty string, whose final `/`-separated segment is the empty string; `getLinks` returns
a map without the key `""` (the empty map). -/
theorem C5_counterexample :
    xmlquery.Find emptyHrefDoc "vcloud:Link"
        = [.element "vcloud:Link" [("rel", "down"), ("href", "")] []]
      ∧ xmlquery.SelectAttr (.element "vcloud:Link" [("rel", "down"), ("href", "")] []) "href"
        = ""
      ∧ strings.Split "" '/' = [""]
      ∧ lastSegment "" = ""
      ∧ ∃ links : StringMap,
        (getLinks (sampleFetch emptyHrefDoc) sampleVat).outcome
          = .returned (links, none)
        ∧ links "" = none ∧ ∀ k, links k = none := by
  refine ⟨rfl, by decide, by decide, by decide, StringMap.empty, rfl, rfl, fun _ => rfl⟩

/-! ## `GetDiskLink`, the raw operations, and the unchecked errors of the accessors -/

/-- Claim C6.  `GetDiskLink` returns, with a nil error, the `getLinks` entry keyed "disks"
when `getLinks` succeeds and has that key; the empty string with a nil error when `getLinks`
succeeds and has no such key; and `("", err)` exactly when `getLinks` returns the error `err`. -/
theorem C6_GetDiskLink_wraps_getLinks (env : Env) (vat : VAppTemplate) :
    (∀ links href, (getLinks env vat).outcome = .returned (links, none) →
        links "disks" = some href →
        (GetDiskLink env vat).outcome = .returned (href, none))
      ∧ (∀ links, (getLinks env vat).outcome = .returned (links, none) →
        links "disks" = none →
        (GetDiskLink env vat).outcome = .returned ("", none))
      ∧ (∀ err, (GetDiskLink env vat).outcome = .returned ("", some err) ↔
        ∃ links, (getLinks env vat).outcome = .returned (links, some err)) := by
  refine ⟨?_, ?_, ?_⟩
  · intro links href h hk
    simp [GetDiskLink, h, StringMap.index, hk]
  · intro links h hk
    simp [GetDiskLink, h, StringMap.index, hk]
  · intro err
    unfold GetDiskLink
    constructor
    · intro h
      simp only at h
      rcases ho : (getLinks env vat).outcome with ⟨links, _ | e⟩ | _
      · simp [ho] at h
      · simp only [ho, Outcome.returned.injEq, Prod.mk.injEq, Option.some.injEq, true_and] at h
        exact ⟨links, by rw [h]⟩
      · simp [ho] at h
    · rintro ⟨links, h⟩
      simp [h]

/-- Witness for C6: on the two-link document `GetDiskLink` returns the disks locator; on a
document without links it returns the empty string; when the body read fails it returns the
read error of `getLinks`. -/
theorem C6_witness :
    (GetDiskLink (sampleFetch twoLinksDoc) sampleVat).outcome
        = .returned ("https://vcd/api/vAppTemplate/t1/disks", none)
      ∧ (GetDiskLink (sampleFetch (sampleDoc [])) sampleVat).outcome
        = .returned ("", none)
      ∧ (GetDiskLink (sampleEnv "" (some (.external "unexpected EOF")) (.ok (.document [])))
          sampleVat).outcome = .returned ("", some (.external "unexpected EOF")) :=
  ⟨(C6_GetDiskLink_wraps_getLinks (sampleFetch twoLinksDoc) sampleVat).1
      (linkLoop (xmlquery.Find twoLinksDoc "vcloud:Link") StringMap.empty)
      "https://vcd/api/vAppTemplate/t1/disks" rfl (by decide),
    (C6_GetDiskLink_wraps_getLinks (sampleFetch (sampleDoc [])) sampleVat).2.1
      StringMap.empty rfl rfl,
    ((C6_GetDiskLink_wraps_getLinks
      (sampleEnv "" (some (.external "unexpected EOF")) (.ok (.document []))) sampleVat).2.2
      (.external "unexpected EOF")).2 ⟨StringMap.empty, rfl⟩⟩

/-- Claim C7.  When the concatenation of the locator and the relative path fails URL parsing,
`PutRaw` returns an empty `Task` together with the URL parse error, `GetRaw` returns the empty
string together with that error, and in both cases no request is built or sent. -/
theorem C7_raw_url_error_before_any_request (env : Env) (vat : VAppTemplate)
    (restUrl content : String) (err : Error)
    (hurl : env.urlParse (vat.VAppTemplate.HREF ++ restUrl) = .error err) :
    (PutRaw env vat restUrl content).outcome
        = .returned ({ Task := none, client := none }, some err)
      ∧ (PutRaw env vat restUrl content).sent = []
      ∧ (GetRaw env vat restUrl).outcome = .returned ("", some err)
      ∧ (GetRaw env vat restUrl).sent = [] := by
  simp [PutRaw, GetRaw, hurl]

/-- Witness for C7: a relative path with a line feed makes the combined locator unparsable. -/
theorem C7_witness :
    sampleUrlParse (sampleVat.VAppTemplate.HREF ++ "/disks\n")
        = .error (.external "net/url: invalid control character in URL")
      ∧ (PutRaw (sampleFetch (sampleDoc [])) sampleVat "/disks\n" "<x/>").outcome
        = .returned ({ Task := none, client := none },
            some (.external "net/url: invalid control character in URL"))
      ∧ (PutRaw (sampleFetch (sampleDoc [])) sampleVat "/disks\n" "<x/>").sent = []
      ∧ (GetRaw (sampleFetch (sampleDoc [])) sampleVat "/disks\n").outcome
        = .returned ("", some (.external "net/url: invalid control character in URL"))
      ∧ (GetRaw (sampleFetch (sampleDoc [])) sampleVat "/disks\n").sent = [] :=
  ⟨rfl, C7_raw_url_error_before_any_request (sampleFetch (sampleDoc [])) sampleVat
    "/disks\n" "<x/>" (.external "net/url: invalid control character in URL") rfl⟩

/-- Claim C8 (the code departs from it).  With a body read that fails after delivering the
descriptor text, each accessor returns a value with a nil error: the read error is dropped,
while `GetDiskLink` (through `getLinks`) and `GetRaw` return it.  With a body that does not
parse, no accessor returns at all, so none returns the parse error, while `GetDiskLink`
returns it. -/
theorem C8_read_and_parse_errors_are_not_returned :
    (GetTemplateDiskSize (sampleEnv (xmlText twoDisksDoc) (some (.external "unexpected EOF"))
        (.ok twoDisksDoc)) sampleVat).outcome = .returned (40960, none)
      ∧ (GetCPUSize (sampleEnv (xmlText twoDisksDoc) (some (.external "unexpected EOF"))
        (.ok twoDisksDoc)) sampleVat).outcome = .returned (0, none)
      ∧ (GetMemorySize (sampleEnv (xmlText twoDisksDoc) (some (.external "unexpected EOF"))
        (.ok twoDisksDoc)) sampleVat).outcome = .returned (0, none)
      ∧ (GetDiskLink (sampleEnv (xmlText twoDisksDoc) (some (.external "unexpected EOF"))
        (.ok twoDisksDoc)) sampleVat).outcome
        = .returned ("", some (.external "unexpected EOF"))
      ∧ (GetRaw (sampleEnv (xmlText twoDisksDoc) (some (.external "unexpected EOF"))
        (.ok twoDisksDoc)) sampleVat "").outcome
        = .returned ("", some (.external "unexpected EOF"))
      ∧ (GetTemplateDiskSize (sampleEnv "<ovf:Envelope" none
        (.error (.external "XML syntax error on line 1: unexpected EOF"))) sampleVat).outcome
        = .panicked
      ∧ (GetCPUSize (sampleEnv "<ovf:Envelope" none
        (.error (.external "XML syntax error on line 1: unexpected EOF"))) sampleVat).outcome
        = .panicked
      ∧ (GetMemorySize (sampleEnv "<ovf:Envelope" none
        (.error (.external "XML syntax error on line 1: unexpected EOF"))) sampleVat).outcome
        = .panicked
      ∧ (GetDiskLink (sampleEnv "<ovf:Envelope" none
        (.error (.external "XML syntax error on line 1: unexpected EOF"))) sampleVat).outcome
        = .returned ("", some (.external "XML syntax error on line 1: unexpected EOF")) := by
  refine ⟨by decide, by decide, by decide, by decide, by decide, by decide, by decide,
    by decide, by decide⟩

end govcd
